import Mathlib

/-!
# easyprofile: port allocation and profile sampling

A shallow embedding of `internal/portmanager/portmanager.go` and `profile.go`.

* Go `int` and `time.Duration` are 64-bit two's complement; they are embedded as `Int`,
  and every addition of the source that can leave the 64-bit range is wrapped by `wrapInt`.
* What the operating system, the network and the clock answer is an explicit argument
  (an oracle) of the embedded function; the embedded function is otherwise the source's
  control flow, statement by statement.
* Effects (sleeping, HTTP requests, file writes, spawned commands, printed lines) are
  recorded in order as a list of `Event`s.
-/

namespace EasyProfile

/-! ## Machine integers -/

/-- Two's-complement wrap of a mathematical integer into the range of a Go `int`
(64 bits): the value the machine holds after an overflowing operation. -/
def wrapInt (x : Int) : Int :=
  (x + 9223372036854775808) % 18446744073709551616 - 9223372036854775808

/-- The values a Go `int` (or `int64`, `time.Duration`) can hold. -/
def IsInt64 (x : Int) : Prop :=
  -9223372036854775808 ≤ x ∧ x ≤ 9223372036854775807

instance (x : Int) : Decidable (IsInt64 x) := by
  unfold IsInt64; exact inferInstance

/-- The text `fmt.Sprintf("%d", n)` produces for an integer. -/
def fmtInt (n : Int) : String := toString n

/-! ## `internal/portmanager` -/

namespace portmanager

/-- The `PortManager` struct without its mutex: every `GetPort` call holds the lock from
its first to its last statement, so calls act on this state one after the other. -/
structure PortManager where
  basePort : Int
  maxAttempts : Int
  deriving DecidableEq, Repr

/-- Both fields hold Go `int` values. -/
def PortManager.WF (pm : PortManager) : Prop :=
  IsInt64 pm.basePort ∧ IsInt64 pm.maxAttempts

instance (pm : PortManager) : Decidable pm.WF := by
  unfold PortManager.WF; exact inferInstance

/-- The constructor `New(basePort)`. -/
def New (basePort : Int) : PortManager :=
  { basePort := basePort, maxAttempts := 20 }

/-- The bind probe `net.Listen("tcp", fmt.Sprintf(":%d", port))` followed by `Close`:
`true` when `err == nil`. The library rejects a port outside `0..65535` as invalid
before it asks the operating system; for a valid port the answer is the environment's,
given by the availability oracle `avail`. -/
def listen (avail : Int → Bool) (port : Int) : Bool :=
  decide (0 ≤ port) && decide (port ≤ 65535) && avail port

/-- What `GetPort` returns: the pair `(int, error)` and the state it leaves. -/
structure GetPortResult where
  port : Int
  err : Option String
  pm : PortManager
  deriving DecidableEq, Repr

/-- The error built by the last statement of `GetPort`. -/
def exhaustedError (pm : PortManager) : String :=
  "no available ports found after " ++ fmtInt pm.maxAttempts ++
    " attempts starting from port " ++ fmtInt pm.basePort

/-- The loop `for attempt := ...; attempt < pm.maxAttempts; attempt++` of `GetPort`,
entered with the loop variable at `attempt` and `remaining` iterations still to run
(`remaining = maxAttempts - attempt`), followed by the final `return 0, err`. -/
def getPortLoop (avail : Int → Bool) (pm : PortManager) : Nat → Int → GetPortResult
  | 0, _ => { port := 0, err := some (exhaustedError pm), pm := pm }
  | remaining + 1, attempt =>
    let port := wrapInt (pm.basePort + attempt)
    if listen avail port then
      { port := port, err := none, pm := { pm with basePort := wrapInt (port + 1) } }
    else
      getPortLoop avail pm remaining (attempt + 1)

/-- The method `(*PortManager).GetPort`, under the availability oracle in force during the call. -/
def GetPort (avail : Int → Bool) (pm : PortManager) : GetPortResult :=
  getPortLoop avail pm pm.maxAttempts.toNat 0

/-- The ports handed out by a sequence of `GetPort` calls on one `PortManager`, in call
order: call number `k` runs under the `k`-th oracle of the list; a failed call
contributes nothing. -/
def grantedPorts (pm : PortManager) : List (Int → Bool) → List Int
  | [] => []
  | avail :: rest =>
    let r := GetPort avail pm
    match r.err with
    | none => r.port :: grantedPorts r.pm rest
    | some _ => grantedPorts r.pm rest

end portmanager

/-! ## Time -/

/-- A `time.Time` as `time.Now()` returns it: the instant, as seconds and nanoseconds
since the Unix epoch, and the offset (seconds east of UTC) of the local zone in force at
that instant. -/
structure Time where
  unix : Int
  nsec : Nat
  offset : Int
  deriving DecidableEq, Repr

/-- Decimal digits of `n`, padded on the left with `0` to `width` digits. -/
def zeroPad (width : Nat) (n : Nat) : String :=
  let s := toString n
  String.mk (List.replicate (width - s.length) '0') ++ s

/-- Year, month and day of the proleptic Gregorian calendar for a day number counted
from 1970-01-01. -/
def civilFromDays (days : Int) : Int × Nat × Nat :=
  let z := days + 719468
  let era := z / 146097
  let doe := (z % 146097).toNat
  let yoe := (doe - doe / 1460 + doe / 36524 - doe / 146096) / 365
  let doy := doe - (365 * yoe + yoe / 4 - yoe / 100)
  let mp := (5 * doy + 2) / 153
  let d := doy - (153 * mp + 2) / 5 + 1
  let m := if mp < 10 then mp + 3 else mp - 9
  let y := (yoe : Int) + era * 400
  (if m ≤ 2 then y + 1 else y, m, d)

/-- Go's rendering of a year under the layout element `2006`: sign, then at least four
digits. -/
def fmtYear (y : Int) : String :=
  if y < 0 then "-" ++ zeroPad 4 (-y).toNat else zeroPad 4 y.toNat

/-- The call `t.Format("2006-01-02_15-04-05")`: the wall clock reading of `t`, to whole seconds;
the nanoseconds of `t` do not appear. -/
def Time.Format (t : Time) : String :=
  let wall := t.unix + t.offset
  let date := civilFromDays (wall / 86400)
  let sod := (wall % 86400).toNat
  fmtYear date.1 ++ "-" ++ zeroPad 2 date.2.1 ++ "-" ++ zeroPad 2 date.2.2 ++ "_" ++
    zeroPad 2 (sod / 3600) ++ "-" ++ zeroPad 2 (sod % 3600 / 60) ++ "-" ++ zeroPad 2 (sod % 60)

/-- One `time.Second`, in the nanoseconds a `time.Duration` counts. -/
def Second : Int := 1000000000

/-! ## Floating point: `Duration.Seconds` -/

/-- Nearest integer, a tie going to the even neighbour. -/
def roundHalfEven (x : ℚ) : Int :=
  let f := ⌊x⌋
  if x - f < 1 / 2 then f
  else if 1 / 2 < x - f then f + 1
  else if f % 2 = 0 then f else f + 1

/-- The `float64` nearest to a rational (IEEE 754 binary64, round to nearest even, 53
significant bits, gradual underflow). Overflow to infinity is not modelled: every value
rounded in this development is below `2 ^ 63` in magnitude. -/
def toFloat64 (x : ℚ) : ℚ :=
  if x = 0 then 0
  else
    let e := max (Int.log 2 |x|) (-1022)
    let ulp : ℚ := 2 ^ (e - 52)
    roundHalfEven (x / ulp) * ulp

/-- The method `d.Seconds()` of the Go library:
`sec := d / Second; nsec := d % Second; return float64(sec) + float64(nsec)/1e9`,
with Go's truncated integer division and each float operation correctly rounded. -/
def Duration.Seconds (d : Int) : ℚ :=
  let sec := Int.tdiv d 1000000000
  let nsec := Int.tmod d 1000000000
  toFloat64 (toFloat64 sec + toFloat64 (toFloat64 nsec / toFloat64 1000000000))

/-- The conversion `int(f)` of a `float64`: the fraction is discarded. -/
def truncToInt (x : ℚ) : Int := if 0 ≤ x then ⌊x⌋ else ⌈x⌉

/-! ## `profile.go`: data -/

/-- Payload of a response, content of a file. -/
abbrev Bytes := List (Fin 256)

/-- The struct `HeapProfileConfig`; `Interval` is a `time.Duration` in nanoseconds. -/
structure HeapProfileConfig where
  Interval : Int
  SampleCount : Int
  deriving DecidableEq, Repr

/-- The struct `CPUProfileConfig`; `Duration` is a `time.Duration` in nanoseconds. -/
structure CPUProfileConfig where
  Duration : Int
  SampleCount : Int
  deriving DecidableEq, Repr

/-- The struct `Config`. The pointer fields `Heap`, `CPU` and `portManager` are `none`
when nil; `portManager` holds the state of the allocator it points to. -/
structure Config where
  Port : Int
  OutputDir : String
  Rate : Int
  GracePeriod : Int
  OpenProfiles : Bool
  Heap : Option HeapProfileConfig
  CPU : Option CPUProfileConfig
  portManager : Option portmanager.PortManager
  deriving DecidableEq, Repr

/-- The effects of the program, in the order they happen. -/
inductive Event where
  /-- Call `os.MkdirAll(path, perm)`. -/
  | mkdirAll (path : String) (perm : Nat)
  /-- Call `runtime.SetCPUProfileRate(hz)`. -/
  | setCPUProfileRate (hz : Int)
  /-- Start `go func() { http.ListenAndServe(addr, nil) }()`. -/
  | goListenAndServe (addr : String)
  /-- Start `go collectHeapProfiles(config)`. -/
  | goCollectHeapProfiles
  /-- Start `go collectCPUProfile(config)`. -/
  | goCollectCPUProfile
  /-- Call `time.Sleep(d)`. -/
  | sleep (d : Int)
  /-- Call `client.Get(url)` on a client whose `Timeout` is `timeout`. -/
  | get (timeout : Int) (url : String)
  /-- Call `io.ReadAll(resp.Body)`. -/
  | readAll
  /-- Call `resp.Body.Close()`. -/
  | closeBody
  /-- Call `os.WriteFile(path, data, perm)`. -/
  | writeFile (path : String) (data : Bytes) (perm : Nat)
  /-- Print one line with `fmt.Printf`. -/
  | print (line : String)
  /-- Call `cmd.Start()` for the command with these arguments (`argv[0]` is the program). -/
  | start (argv : List String)
  /-- Start `go func() { cmd.Wait() }()`. -/
  | goWait
  deriving DecidableEq, Repr

/-- The regular files on disk: path and content, no path twice. -/
abbrev FS := List (String × Bytes)

/-- How one `os.WriteFile` call ends. The call opens the file with
`O_WRONLY|O_CREATE|O_TRUNC`, writes, and closes. -/
inductive WriteOutcome where
  /-- All of it succeeded: the file holds exactly the data. -/
  | ok
  /-- The open failed: nothing on disk changed. -/
  | openFailed (err : String)
  /-- The file was opened (created or truncated) and the write or the close failed,
  leaving `written` in it. -/
  | writeFailed (err : String) (written : Bytes)
  deriving DecidableEq, Repr

/-- The file system with the file at `path` holding `data`. -/
def FS.put (fs : FS) (path : String) (data : Bytes) : FS :=
  (path, data) :: fs.filter (fun e => e.1 ≠ path)

/-- The call `os.WriteFile(path, data, _)`: the returned error and the file system afterwards. -/
def WriteFile (fs : FS) (path : String) (data : Bytes) : WriteOutcome → Option String × FS
  | .ok => (none, fs.put path data)
  | .openFailed err => (some err, fs)
  | .writeFailed err written => (some err, fs.put path written)

/-- Whether `path` lies under the directory `dir`. -/
def inDir (dir path : String) : Prop := (dir ++ "/").data <+: path.data

instance (dir path : String) : Decidable (inDir dir path) := by
  unfold inDir; exact inferInstance

/-- The paths of the files under `dir`. -/
def artifacts (fs : FS) (dir : String) : Finset String :=
  (fs.map Prod.fst).toFinset.filter (fun p => inDir dir p)

/-- What the environment answers during one iteration of a sampling loop. -/
structure Sample where
  /-- The value of `time.Now()`. -/
  now : Time
  /-- The error of `client.Get`, `none` when a response arrived. -/
  get : Option String
  /-- The result of `io.ReadAll(resp.Body)`, consulted when a response arrived. -/
  read : Except String Bytes
  /-- The fate of `os.WriteFile`, consulted when the body was read. -/
  write : WriteOutcome

/-- What the environment answers while the viewer is launched. -/
structure ViewerEnv where
  /-- Availability of ports during the `GetPort` call. -/
  avail : Int → Bool
  /-- The error of `cmd.Start()`, `none` when the process was started. -/
  start : Option String

/-- What the environment answers during one run of a sampler. -/
structure SamplerEnv where
  /-- The error of `os.MkdirAll` on the subdirectory, `none` when it exists afterwards. -/
  mkdir : Option String
  /-- The answers to iteration `i` of the loop. -/
  samples : Nat → Sample
  viewer : ViewerEnv

/-- The outcome of a sampler run or of a viewer launch. -/
structure Run where
  trace : List Event
  fs : FS
  pm : portmanager.PortManager
  /-- The child processes the run has spawned, by their arguments: the commands on which
  `cmd.Start()` returned no error. -/
  children : List (List String)

/-! ## `profile.go`: the viewer launch -/

/-- The arguments of `exec.Command("go", "tool", "pprof", "-http", ":<port>", "<dir>/*")`. -/
def viewerArgv (port : Int) (profileDir : String) : List String :=
  ["go", "tool", "pprof", "-http", ":" ++ fmtInt port, profileDir ++ "/*"]

/-- The function `openProfilesInBrowser(config, profileDir, profileType)`, with `pm` the state of
`config.portManager`. -/
def openProfilesInBrowser (pm : portmanager.PortManager) (profileDir profileType : String)
    (env : ViewerEnv) (fs : FS) : Run :=
  let r := portmanager.GetPort env.avail pm
  match r.err with
  | some err =>
    { trace := [.print ("ERROR: Failed to get available port for pprof web UI: " ++ err ++ "\n")],
      fs := fs, pm := r.pm, children := [] }
  | none =>
    let cmd := viewerArgv r.port profileDir
    match env.start with
    | some err =>
      { trace := [.start cmd,
          .print ("ERROR: Failed to open " ++ profileType ++ " profiles in browser: " ++
            err ++ "\n")],
        fs := fs, pm := r.pm, children := [] }
    | none =>
      { trace := [.start cmd,
          .print ("INFO: Opening " ++ profileType ++ " profiles in browser at http://localhost:" ++
            fmtInt r.port ++ "\n"),
          .goWait],
        fs := fs, pm := r.pm, children := [cmd] }

/-! ## `profile.go`: the heap sampler -/

/-- The file a heap sample taken at `now` is written to. -/
def heapFile (heapDir : String) (now : Time) : String :=
  heapDir ++ "/heap_" ++ now.Format ++ ".prof"

/-- The address the heap sampler requests. -/
def heapURL (config : Config) : String :=
  "http://localhost:" ++ fmtInt config.Port ++ "/debug/pprof/heap"

/-- The loop `for i := ...; i < config.Heap.SampleCount; i++` of `collectHeapProfiles`,
entered with the loop variable at `i` and `remaining` iterations still to run: the
events of those iterations and the file system after them. -/
def heapLoop (config : Config) (heap : HeapProfileConfig) (heapDir : String)
    (samples : Nat → Sample) : Nat → Nat → FS → List Event × FS
  | 0, _, fs => ([], fs)
  | remaining + 1, i, fs =>
    let s := samples i
    let filename := heapFile heapDir s.now
    let request := Event.get (5 * Second) (heapURL config)
    match s.get with
    | some err =>
      let rest := heapLoop config heap heapDir samples remaining (i + 1) fs
      (request :: .print ("ERROR: Failed to collect heap profile: " ++ err ++ "\n") ::
        .sleep heap.Interval :: rest.1, rest.2)
    | none =>
      match s.read with
      | .error err =>
        let rest := heapLoop config heap heapDir samples remaining (i + 1) fs
        (request :: .readAll ::
          .print ("ERROR: Failed to read heap profile data: " ++ err ++ "\n") ::
          .closeBody :: .sleep heap.Interval :: rest.1, rest.2)
      | .ok data =>
        let w := WriteFile fs filename data s.write
        let line := match w.1 with
          | some err => "ERROR: Failed to write heap profile to file: " ++ err ++ "\n"
          | none => "INFO: Saved heap profile to " ++ filename ++ "\n"
        let rest := heapLoop config heap heapDir samples remaining (i + 1) w.2
        (request :: .readAll :: .closeBody :: .writeFile filename data 0o644 ::
          .print line :: .sleep heap.Interval :: rest.1, rest.2)

/-- The function `collectHeapProfiles(config)`, with `heap` the struct `config.Heap` points to and
`pm` the state of `config.portManager`: `RunProfile` starts it only when `config.Heap`
is not nil, after it has set `config.portManager`. -/
def collectHeapProfiles (config : Config) (heap : HeapProfileConfig)
    (pm : portmanager.PortManager) (env : SamplerEnv) (fs : FS) : Run :=
  let heapDir := config.OutputDir ++ "/heap"
  match env.mkdir with
  | some err =>
    { trace := [.mkdirAll heapDir 0o755,
        .print ("ERROR: Failed to create heap profile directory: " ++ err ++ "\n")],
      fs := fs, pm := pm, children := [] }
  | none =>
    let loop := heapLoop config heap heapDir env.samples heap.SampleCount.toNat 0 fs
    let before := Event.mkdirAll heapDir 0o755 :: .sleep config.GracePeriod :: loop.1
    if config.OpenProfiles then
      let v := openProfilesInBrowser pm heapDir "heap" env.viewer loop.2
      { trace := before ++ v.trace, fs := v.fs, pm := v.pm, children := v.children }
    else
      { trace := before, fs := loop.2, pm := pm, children := [] }

/-! ## `profile.go`: the CPU sampler -/

/-- The file a CPU sample taken at `now` is written to. -/
def cpuFile (cpuDir : String) (now : Time) : String :=
  cpuDir ++ "/cpu_" ++ now.Format ++ ".prof"

/-- The `Timeout` of the CPU sampler's client: `config.CPU.Duration + 3*time.Second`, in
64-bit arithmetic. -/
def cpuTimeout (cpu : CPUProfileConfig) : Int :=
  wrapInt (cpu.Duration + 3 * Second)

/-- The number sent as `seconds=`: `int(config.CPU.Duration.Seconds())`. -/
def cpuSeconds (cpu : CPUProfileConfig) : Int :=
  truncToInt (Duration.Seconds cpu.Duration)

/-- The address the CPU sampler requests. -/
def cpuURL (config : Config) (cpu : CPUProfileConfig) : String :=
  "http://localhost:" ++ fmtInt config.Port ++ "/debug/pprof/profile?seconds=" ++
    fmtInt (cpuSeconds cpu)

/-- The loop `for i := ...; i < config.CPU.SampleCount; i++` of `collectCPUProfile`,
entered with the loop variable at `i` and `remaining` iterations still to run: the
events of those iterations and the file system after them. -/
def cpuLoop (config : Config) (cpu : CPUProfileConfig) (cpuDir : String)
    (samples : Nat → Sample) : Nat → Nat → FS → List Event × FS
  | 0, _, fs => ([], fs)
  | remaining + 1, i, fs =>
    let s := samples i
    let filename := cpuFile cpuDir s.now
    let request := Event.get (cpuTimeout cpu) (cpuURL config cpu)
    match s.get with
    | some err =>
      let rest := cpuLoop config cpu cpuDir samples remaining (i + 1) fs
      (request :: .print ("ERROR: Failed to collect CPU profile: " ++ err ++ "\n") ::
        rest.1, rest.2)
    | none =>
      match s.read with
      | .error err =>
        let rest := cpuLoop config cpu cpuDir samples remaining (i + 1) fs
        (request :: .readAll ::
          .print ("ERROR: Failed to read CPU profile data: " ++ err ++ "\n") ::
          .closeBody :: rest.1, rest.2)
      | .ok data =>
        let w := WriteFile fs filename data s.write
        let line := match w.1 with
          | some err => "ERROR: Failed to write CPU profile to file: " ++ err ++ "\n"
          | none => "INFO: Saved CPU profile to " ++ filename ++ "\n"
        let rest := cpuLoop config cpu cpuDir samples remaining (i + 1) w.2
        (request :: .readAll :: .closeBody :: .writeFile filename data 0o644 ::
          .print line :: rest.1, rest.2)

/-- The function `collectCPUProfile(config)`, with `cpu` the struct `config.CPU` points to and `pm`
the state of `config.portManager`: `RunProfile` starts it only when `config.CPU` is not
nil, after it has set `config.portManager`. -/
def collectCPUProfile (config : Config) (cpu : CPUProfileConfig)
    (pm : portmanager.PortManager) (env : SamplerEnv) (fs : FS) : Run :=
  let cpuDir := config.OutputDir ++ "/cpu"
  match env.mkdir with
  | some err =>
    { trace := [.mkdirAll cpuDir 0o755,
        .print ("ERROR: Failed to create CPU profile directory: " ++ err ++ "\n")],
      fs := fs, pm := pm, children := [] }
  | none =>
    let loop := cpuLoop config cpu cpuDir env.samples cpu.SampleCount.toNat 0 fs
    let before := Event.mkdirAll cpuDir 0o755 :: .sleep config.GracePeriod :: loop.1
    if config.OpenProfiles then
      let v := openProfilesInBrowser pm cpuDir "cpu" env.viewer loop.2
      { trace := before ++ v.trace, fs := v.fs, pm := v.pm, children := v.children }
    else
      { trace := before, fs := loop.2, pm := pm, children := [] }

/-! ## `profile.go`: `RunProfile` -/

/-- The function `defaultProfileConfig()`. -/
def defaultProfileConfig : Config :=
  { Port := 6060
    OutputDir := "profile/profiles"
    Rate := 100
    GracePeriod := Second
    OpenProfiles := true
    Heap := some { Interval := Second * 10, SampleCount := 10 }
    CPU := some { Duration := Second * 10, SampleCount := 10 }
    portManager := none }

/-- What `RunProfile` has done when it returns. -/
structure Launch where
  trace : List Event
  /-- The configuration the samplers read, `none` when `RunProfile` returned before it
  started anything. -/
  config : Option Config

/-- The function `RunProfile(config)`: `config` is `none` for a nil pointer, `now` is the value of
`time.Now()` (read when `OutputDir` is empty), `mkdir` the error of `os.MkdirAll` on the
output directory. -/
def RunProfile (config : Option Config) (now : Time) (mkdir : Option String) : Launch :=
  let c0 : Config := match config with
    | none => defaultProfileConfig
    | some c => c
  let c1 : Config := if c0.Port = 0 then { c0 with Port := 6060 } else c0
  let c2 : Config := if c1.OutputDir = "" then
      { c1 with OutputDir := "profile/profiles_" ++ now.Format }
    else c1
  match mkdir with
  | some err =>
    { trace := [.mkdirAll c2.OutputDir 0o755,
        .print ("ERROR: Failed to create profile directory: " ++ err ++ "\n")],
      config := none }
  | none =>
    let rate : Int := if c2.Rate ≤ 0 then 100 else c2.Rate
    let c3 : Config := match c2.portManager with
      | none => { c2 with portManager := some (portmanager.New 21000) }
      | some _ => c2
    let addr := ":" ++ fmtInt c3.Port
    { trace := [.mkdirAll c3.OutputDir 0o755, .setCPUProfileRate rate,
          .goListenAndServe addr] ++
        (if c3.Heap.isSome then [.goCollectHeapProfiles] else []) ++
        (if c3.CPU.isSome then [.goCollectCPUProfile] else []),
      config := some c3 }

/-! ## Reading a trace -/

/-- The durations slept, in order. -/
def sleeps : List Event → List Int
  | [] => []
  | .sleep d :: rest => d :: sleeps rest
  | _ :: rest => sleeps rest

/-- The requests sent, in order: client timeout and address. -/
def requests : List Event → List (Int × String)
  | [] => []
  | .get timeout url :: rest => (timeout, url) :: requests rest
  | _ :: rest => requests rest

/-- The file writes attempted, in order: path and data. -/
def writes : List Event → List (String × Bytes)
  | [] => []
  | .writeFile path data _ :: rest => (path, data) :: writes rest
  | _ :: rest => writes rest

/-- The commands started, in order. -/
def starts : List Event → List (List String)
  | [] => []
  | .start argv :: rest => argv :: starts rest
  | _ :: rest => starts rest

/-- The requests and the sleeps of a trace, in order, everything else dropped. -/
def pacing : List Event → List Event
  | [] => []
  | .sleep d :: rest => .sleep d :: pacing rest
  | .get timeout url :: rest => .get timeout url :: pacing rest
  | _ :: rest => pacing rest

/-! ## Example runs -/

/-- A heap sampler of three samples, ten seconds apart. -/
def exampleHeap : HeapProfileConfig := { Interval := 10 * Second, SampleCount := 3 }

/-- A CPU sampler of three profiles of ten seconds each. -/
def exampleCPU : CPUProfileConfig := { Duration := 10 * Second, SampleCount := 3 }

/-- A configuration with every field set. -/
def exampleConfig : Config :=
  { Port := 6060
    OutputDir := "out"
    Rate := 100
    GracePeriod := Second
    OpenProfiles := true
    Heap := some exampleHeap
    CPU := some exampleCPU
    portManager := some (portmanager.New 21000) }

/-- An environment in which everything succeeds and the clock reads ten seconds more at
each iteration, starting on 2025-11-04 at 09:07:01 UTC. -/
def healthyEnv : SamplerEnv :=
  { mkdir := none
    samples := fun i =>
      { now := { unix := 1762247221 + 10 * i, nsec := 0, offset := 0 }
        get := none
        read := .ok [1, 2, 3]
        write := .ok }
    viewer := { avail := fun _ => true, start := none } }

/-- An environment in which every other request fails, and no port is free when the
viewer is to be launched. -/
def flakyEnv : SamplerEnv :=
  { mkdir := none
    samples := fun i =>
      { now := { unix := 1762247221 + 10 * i, nsec := 0, offset := 0 }
        get := if i % 2 = 0 then none else some "connection refused"
        read := .ok [1, 2, 3]
        write := .ok }
    viewer := { avail := fun _ => false, start := none } }

/-- An environment in which everything succeeds but the start of the viewer command: the
`go` program is not to be found. -/
def noViewerEnv : SamplerEnv :=
  { mkdir := none
    samples := fun i =>
      { now := { unix := 1762247221 + 10 * i, nsec := 0, offset := 0 }
        get := none
        read := .ok [1, 2, 3]
        write := .ok }
    viewer := { avail := fun _ => true, start := some "executable file not found" } }

/-- A heap sampler of two samples, 400 milliseconds apart. -/
def burstHeap : HeapProfileConfig := { Interval := 400000000, SampleCount := 2 }

/-- An environment in which everything succeeds and the clock reads 450 milliseconds
more at each iteration (the interval slept and the time the request takes), starting on
2025-11-04 at 09:07:01.000 UTC. -/
def burstEnv : SamplerEnv :=
  { mkdir := none
    samples := fun i =>
      { now := { unix := 1762247221 + (450000000 * i) / 1000000000,
                 nsec := (450000000 * i) % 1000000000, offset := 0 }
        get := none
        read := .ok [1, 2, 3]
        write := .ok }
    viewer := { avail := fun _ => true, start := none } }

/-- The configuration `&Config{Heap: &HeapProfileConfig{Interval: 10 * time.Second,
SampleCount: 3}}`: every other field left at its zero value. -/
def zeroConfig : Config :=
  { Port := 0
    OutputDir := ""
    Rate := 0
    GracePeriod := 0
    OpenProfiles := false
    Heap := some exampleHeap
    CPU := none
    portManager := none }

/-- A CPU sampler with the largest `time.Duration` there is. -/
def longestCPU : CPUProfileConfig := { Duration := 9223372036854775807, SampleCount := 1 }

/-- A CPU sampler of one profile of 16777216.999999999 seconds. -/
def roundingCPU : CPUProfileConfig := { Duration := 16777216999999999, SampleCount := 1 }

/-! ## Lemmas on the port scan -/

namespace portmanager

theorem listen_valid {avail : Int → Bool} {p : Int} (h : listen avail p = true) :
    0 ≤ p ∧ p ≤ 65535 := by
  simp [listen] at h
  omega

/-- Within the reach of one scan the wrapped candidate passes the probe exactly when the
unwrapped one does: a sum that left the 64-bit range wraps to a negative number. -/
theorem listen_wrapInt (avail : Int → Bool) (x : Int)
    (hlo : -9223372036854775808 ≤ x) (hhi : x < 18446744073709551616) :
    listen avail (wrapInt x) = listen avail x := by
  by_cases hx : x < 9223372036854775808
  · have : wrapInt x = x := by unfold wrapInt; omega
    rw [this]
  · have h1 : wrapInt x < 0 := by unfold wrapInt; omega
    have h2 : ¬ (0 ≤ wrapInt x) := by omega
    have h3 : ¬ (x ≤ 65535) := by omega
    simp [listen, h2, h3]

/-- A candidate that passes the probe was computed without overflow. -/
theorem wrapInt_of_listen {avail : Int → Bool} {x : Int}
    (hlo : -9223372036854775808 ≤ x) (hhi : x < 18446744073709551616)
    (h : listen avail (wrapInt x) = true) : wrapInt x = x := by
  have hv := listen_valid h
  unfold wrapInt at hv ⊢
  omega

/-- Outcome of the scan loop: either every remaining candidate failed and the state is
untouched, or the first passing candidate is returned and `basePort` moves just past
it. -/
theorem getPortLoop_spec (avail : Int → Bool) (pm : PortManager)
    (hb : IsInt64 pm.basePort) :
    ∀ (remaining : Nat) (attempt : Int), 0 ≤ attempt →
      attempt + remaining ≤ 9223372036854775807 →
      ((getPortLoop avail pm remaining attempt).err = some (exhaustedError pm) ∧
        (getPortLoop avail pm remaining attempt).port = 0 ∧
        (getPortLoop avail pm remaining attempt).pm = pm ∧
        ∀ p, pm.basePort + attempt ≤ p → p < pm.basePort + attempt + remaining →
          listen avail p = false) ∨
      (∃ p, pm.basePort + attempt ≤ p ∧ p < pm.basePort + attempt + remaining ∧
        listen avail p = true ∧
        (∀ q, pm.basePort + attempt ≤ q → q < p → listen avail q = false) ∧
        (getPortLoop avail pm remaining attempt).err = none ∧
        (getPortLoop avail pm remaining attempt).port = p ∧
        (getPortLoop avail pm remaining attempt).pm =
          { basePort := p + 1, maxAttempts := pm.maxAttempts }) := by
  obtain ⟨hb1, hb2⟩ := hb
  intro remaining
  induction remaining with
  | zero =>
    intro attempt _ _
    left
    refine ⟨rfl, rfl, rfl, ?_⟩
    intro p h1 h2
    simp at h2
    omega
  | succ n ih =>
    intro attempt h0 hle
    have hlo : -9223372036854775808 ≤ pm.basePort + attempt := by omega
    have hhi : pm.basePort + attempt < 18446744073709551616 := by
      push_cast at hle; omega
    by_cases hl : listen avail (wrapInt (pm.basePort + attempt)) = true
    · right
      have hw := wrapInt_of_listen hlo hhi hl
      have hv := listen_valid hl
      rw [hw] at hl hv
      have hw1 : wrapInt (pm.basePort + attempt + 1) = pm.basePort + attempt + 1 := by
        unfold wrapInt; omega
      refine ⟨pm.basePort + attempt, le_refl _, ?_, hl, ?_, ?_, ?_, ?_⟩
      · push_cast; omega
      · intro q h1 h2; omega
      · simp [getPortLoop, hw, hl]
      · simp [getPortLoop, hw, hl]
      · simp [getPortLoop, hw, hl, hw1]
    · have hl2 : listen avail (wrapInt (pm.basePort + attempt)) = false := by
        simpa using hl
      have hl3 : listen avail (pm.basePort + attempt) = false := by
        rw [← listen_wrapInt avail _ hlo hhi]; exact hl2
      have hstep : getPortLoop avail pm (n + 1) attempt =
          getPortLoop avail pm n (attempt + 1) := by
        simp [getPortLoop, hl2]
      rw [hstep]
      have hle2 : attempt + 1 + (n : Int) ≤ 9223372036854775807 := by
        push_cast at hle; omega
      rcases ih (attempt + 1) (by omega) hle2 with ⟨e1, e2, e3, e4⟩ | ⟨p, p1, p2, p3, p4, p5⟩
      · left
        refine ⟨e1, e2, e3, ?_⟩
        intro p h1 h2
        by_cases hp : p = pm.basePort + attempt
        · rw [hp]; exact hl3
        · apply e4 p (by omega)
          push_cast at h2; omega
      · right
        refine ⟨p, by omega, by push_cast; omega, p3, ?_, p5⟩
        intro q h1 h2
        by_cases hq : q = pm.basePort + attempt
        · rw [hq]; exact hl3
        · exact p4 q (by omega) h2

/-- Outcome of `GetPort` on a well-formed state, in terms of the window
`[basePort, basePort + maxAttempts)`. -/
theorem GetPort_spec (avail : Int → Bool) (pm : PortManager) (hwf : pm.WF) :
    ((GetPort avail pm).err = some (exhaustedError pm) ∧
      (GetPort avail pm).port = 0 ∧ (GetPort avail pm).pm = pm ∧
      ∀ p, pm.basePort ≤ p → p < pm.basePort + pm.maxAttempts → listen avail p = false) ∨
    (∃ p, pm.basePort ≤ p ∧ p < pm.basePort + pm.maxAttempts ∧ listen avail p = true ∧
      (∀ q, pm.basePort ≤ q → q < p → listen avail q = false) ∧
      (GetPort avail pm).err = none ∧ (GetPort avail pm).port = p ∧
      (GetPort avail pm).pm = { basePort := p + 1, maxAttempts := pm.maxAttempts }) := by
  obtain ⟨hb, hm1, hm2⟩ := hwf
  have hcast : ((pm.maxAttempts.toNat : Nat) : Int) = max pm.maxAttempts 0 :=
    Int.toNat_eq_max pm.maxAttempts
  have hle : (0 : Int) + (pm.maxAttempts.toNat : Nat) ≤ 9223372036854775807 := by
    rw [hcast]; omega
  rcases getPortLoop_spec avail pm hb pm.maxAttempts.toNat 0 (le_refl _) hle with
    ⟨e1, e2, e3, e4⟩ | ⟨p, p1, p2, p3, p4, p5⟩
  · left
    refine ⟨e1, e2, e3, ?_⟩
    intro p h1 h2
    apply e4 p (by omega)
    rw [hcast]; omega
  · right
    rw [hcast] at p2
    refine ⟨p, by omega, by omega, p3, ?_, p5⟩
    intro q h1 h2
    exact p4 q (by omega) h2

/-- A call of `GetPort` keeps the state well formed and never lowers `basePort`. -/
theorem GetPort_preserves (avail : Int → Bool) (pm : PortManager) (hwf : pm.WF) :
    (GetPort avail pm).pm.WF ∧ pm.basePort ≤ (GetPort avail pm).pm.basePort ∧
      (GetPort avail pm).pm.maxAttempts = pm.maxAttempts := by
  rcases GetPort_spec avail pm hwf with ⟨_, _, e3, _⟩ | ⟨p, p1, _, p3, _, _, _, p7⟩
  · rw [e3]; exact ⟨hwf, le_refl _, rfl⟩
  · rw [p7]
    have hv := listen_valid p3
    obtain ⟨_, hm⟩ := hwf
    refine ⟨⟨?_, hm⟩, ?_, rfl⟩
    · constructor <;> simp only <;> omega
    · simp only; omega

/-- A successful `GetPort` returns a port at or above the `basePort` it started from and
leaves `basePort` just above the port. -/
theorem GetPort_success (avail : Int → Bool) (pm : PortManager) (hwf : pm.WF)
    (h : (GetPort avail pm).err = none) :
    pm.basePort ≤ (GetPort avail pm).port ∧
      (GetPort avail pm).pm.basePort = (GetPort avail pm).port + 1 := by
  rcases GetPort_spec avail pm hwf with ⟨e1, _⟩ | ⟨p, p1, _, _, _, _, p6, p7⟩
  · rw [e1] at h; cases h
  · rw [p6, p7]; exact ⟨p1, rfl⟩

/-- Every port a sequence of calls hands out is at or above the `basePort` the sequence
started from. -/
theorem grantedPorts_ge (oracles : List (Int → Bool)) :
    ∀ pm : PortManager, pm.WF → ∀ x ∈ grantedPorts pm oracles, pm.basePort ≤ x := by
  induction oracles with
  | nil => intro pm _ x hx; simp [grantedPorts] at hx
  | cons avail rest ih =>
    intro pm hwf x hx
    obtain ⟨hwf2, hmono, _⟩ := GetPort_preserves avail pm hwf
    cases herr : (GetPort avail pm).err with
    | none =>
      have hs := GetPort_success avail pm hwf herr
      simp only [grantedPorts, herr, List.mem_cons] at hx
      rcases hx with rfl | hx
      · exact hs.1
      · exact le_trans hmono (ih _ hwf2 x hx)
    | some e =>
      simp only [grantedPorts, herr] at hx
      exact le_trans hmono (ih _ hwf2 x hx)

/-- The ports a sequence of calls hands out are strictly increasing in call order. -/
theorem grantedPorts_increasing (oracles : List (Int → Bool)) :
    ∀ pm : PortManager, pm.WF → (grantedPorts pm oracles).Pairwise (fun a b => a < b) := by
  induction oracles with
  | nil => intro pm _; simp [grantedPorts]
  | cons avail rest ih =>
    intro pm hwf
    obtain ⟨hwf2, _, _⟩ := GetPort_preserves avail pm hwf
    cases herr : (GetPort avail pm).err with
    | none =>
      have hs := GetPort_success avail pm hwf herr
      simp only [grantedPorts, herr, List.pairwise_cons]
      refine ⟨?_, ih _ hwf2⟩
      intro x hx
      have := grantedPorts_ge rest _ hwf2 x hx
      omega
    | some e =>
      simp only [grantedPorts, herr]
      exact ih _ hwf2

end portmanager

/-! ## Lemmas on traces -/

theorem sleeps_append (l₁ l₂ : List Event) : sleeps (l₁ ++ l₂) = sleeps l₁ ++ sleeps l₂ := by
  induction l₁ with
  | nil => rfl
  | cons a l ih => cases a <;> simp [sleeps, ih]

theorem requests_append (l₁ l₂ : List Event) :
    requests (l₁ ++ l₂) = requests l₁ ++ requests l₂ := by
  induction l₁ with
  | nil => rfl
  | cons a l ih => cases a <;> simp [requests, ih]

theorem writes_append (l₁ l₂ : List Event) : writes (l₁ ++ l₂) = writes l₁ ++ writes l₂ := by
  induction l₁ with
  | nil => rfl
  | cons a l ih => cases a <;> simp [writes, ih]

theorem starts_append (l₁ l₂ : List Event) : starts (l₁ ++ l₂) = starts l₁ ++ starts l₂ := by
  induction l₁ with
  | nil => rfl
  | cons a l ih => cases a <;> simp [starts, ih]

theorem pacing_append (l₁ l₂ : List Event) : pacing (l₁ ++ l₂) = pacing l₁ ++ pacing l₂ := by
  induction l₁ with
  | nil => rfl
  | cons a l ih => cases a <;> simp [pacing, ih]

/-- A trace with a single `start` event splits around it in one way only. -/
theorem start_split_unique (a : List String) (l₂ : List Event) (h₂ : starts l₂ = []) :
    ∀ (l₁ pre : List Event) (argv : List String) (post : List Event), starts l₁ = [] →
      l₁ ++ Event.start a :: l₂ = pre ++ Event.start argv :: post →
      pre = l₁ ∧ argv = a ∧ post = l₂ := by
  intro l₁
  induction l₁ with
  | nil =>
    intro pre argv post _ h
    cases pre with
    | nil =>
      simp only [List.nil_append, List.cons.injEq, Event.start.injEq] at h
      exact ⟨rfl, h.1.symm, h.2.symm⟩
    | cons x pre =>
      simp only [List.nil_append, List.cons_append, List.cons.injEq] at h
      have := congrArg starts h.2
      rw [h₂, starts_append] at this
      simp [starts] at this
  | cons y l ih =>
    intro pre argv post h₁ h
    cases pre with
    | nil =>
      simp only [List.nil_append, List.cons_append, List.cons.injEq] at h
      rw [h.1] at h₁
      simp [starts] at h₁
    | cons x pre =>
      simp only [List.cons_append, List.cons.injEq] at h
      have hl : starts l = [] := by
        cases y <;> first | exact h₁ | (simp [starts] at h₁)
      obtain ⟨e1, e2, e3⟩ := ih pre argv post hl h.2
      exact ⟨by rw [h.1, e1], e2, e3⟩

/-! ## Lemmas on the viewer launch -/

theorem openProfilesInBrowser_quiet (pm : portmanager.PortManager) (dir ty : String)
    (env : ViewerEnv) (fs : FS) :
    sleeps (openProfilesInBrowser pm dir ty env fs).trace = [] ∧
      requests (openProfilesInBrowser pm dir ty env fs).trace = [] ∧
      writes (openProfilesInBrowser pm dir ty env fs).trace = [] ∧
      pacing (openProfilesInBrowser pm dir ty env fs).trace = [] ∧
      (openProfilesInBrowser pm dir ty env fs).fs = fs := by
  unfold openProfilesInBrowser
  cases hp : (portmanager.GetPort env.avail pm).err with
  | some e => simp [hp, sleeps, requests, writes, pacing]
  | none =>
    cases hs : env.start with
    | some e => simp [hp, sleeps, requests, writes, pacing]
    | none => simp [hp, sleeps, requests, writes, pacing]

theorem openProfilesInBrowser_starts (pm : portmanager.PortManager) (dir ty : String)
    (env : ViewerEnv) (fs : FS) :
    starts (openProfilesInBrowser pm dir ty env fs).trace =
      match (portmanager.GetPort env.avail pm).err with
      | none => [viewerArgv (portmanager.GetPort env.avail pm).port dir]
      | some _ => [] := by
  unfold openProfilesInBrowser
  cases hp : (portmanager.GetPort env.avail pm).err with
  | some e => simp [hp, starts]
  | none =>
    cases hs : env.start with
    | some e => simp [hp, starts]
    | none => simp [hp, starts]

/-- The processes a viewer launch spawns: the one command, when `GetPort` and
`cmd.Start()` both succeed. -/
theorem openProfilesInBrowser_children (pm : portmanager.PortManager) (dir ty : String)
    (env : ViewerEnv) (fs : FS) :
    (openProfilesInBrowser pm dir ty env fs).children =
      if (portmanager.GetPort env.avail pm).err = none ∧ env.start = none then
        [viewerArgv (portmanager.GetPort env.avail pm).port dir]
      else [] := by
  unfold openProfilesInBrowser
  cases hp : (portmanager.GetPort env.avail pm).err with
  | some e => simp [hp]
  | none =>
    cases hs : env.start with
    | some e => simp [hp]
    | none => simp [hp]

/-- When the viewer launch starts a command, the `start` event is the first of its
trace and nothing after it is a request, a write, a sleep or another start. -/
theorem openProfilesInBrowser_shape (pm : portmanager.PortManager) (dir ty : String)
    (env : ViewerEnv) (fs : FS) (h : (portmanager.GetPort env.avail pm).err = none) :
    ∃ tail, (openProfilesInBrowser pm dir ty env fs).trace =
        Event.start (viewerArgv (portmanager.GetPort env.avail pm).port dir) :: tail ∧
      starts tail = [] ∧ requests tail = [] ∧ writes tail = [] ∧ sleeps tail = [] := by
  unfold openProfilesInBrowser
  simp only [h]
  cases hs : env.start with
  | some e => exact ⟨_, rfl, by simp [starts, requests, writes, sleeps]⟩
  | none => exact ⟨_, rfl, by simp [starts, requests, writes, sleeps]⟩

/-! ## Lemmas on the sampling loops -/

theorem heapLoop_trace (config : Config) (heap : HeapProfileConfig) (dir : String)
    (samples : Nat → Sample) :
    ∀ (remaining i : Nat) (fs : FS),
      sleeps (heapLoop config heap dir samples remaining i fs).1 =
          List.replicate remaining heap.Interval ∧
        requests (heapLoop config heap dir samples remaining i fs).1 =
          List.replicate remaining (5 * Second, heapURL config) ∧
        starts (heapLoop config heap dir samples remaining i fs).1 = [] ∧
        pacing (heapLoop config heap dir samples remaining i fs).1 =
          (List.replicate remaining
            [Event.get (5 * Second) (heapURL config), Event.sleep heap.Interval]).flatten ∧
        writes (heapLoop config heap dir samples remaining i fs).1 =
          (List.range' i remaining).filterMap (fun j =>
            match (samples j).get, (samples j).read with
            | none, .ok data => some (heapFile dir (samples j).now, data)
            | _, _ => none) := by
  intro remaining
  induction remaining with
  | zero => intro i fs; simp [heapLoop, sleeps, requests, starts, pacing, writes]
  | succ n ih =>
    intro i fs
    unfold heapLoop
    cases hg : (samples i).get with
    | some e =>
      obtain ⟨h1, h2, h3, h4, h5⟩ := ih (i + 1) fs
      simp [sleeps, requests, starts, pacing, writes, h1, h2, h3, h4, h5, hg,
        List.replicate_succ, List.range'_succ]
    | none =>
      cases hr : (samples i).read with
      | error e =>
        obtain ⟨h1, h2, h3, h4, h5⟩ := ih (i + 1) fs
        simp [sleeps, requests, starts, pacing, writes, h1, h2, h3, h4, h5, hg, hr,
          List.replicate_succ, List.range'_succ]
      | ok data =>
        obtain ⟨h1, h2, h3, h4, h5⟩ :=
          ih (i + 1) (WriteFile fs (heapFile dir (samples i).now) data (samples i).write).2
        simp [sleeps, requests, starts, pacing, writes, h1, h2, h3, h4, h5, hg, hr,
          List.replicate_succ, List.range'_succ]

theorem cpuLoop_trace (config : Config) (cpu : CPUProfileConfig) (dir : String)
    (samples : Nat → Sample) :
    ∀ (remaining i : Nat) (fs : FS),
      sleeps (cpuLoop config cpu dir samples remaining i fs).1 = [] ∧
        requests (cpuLoop config cpu dir samples remaining i fs).1 =
          List.replicate remaining (cpuTimeout cpu, cpuURL config cpu) ∧
        starts (cpuLoop config cpu dir samples remaining i fs).1 = [] ∧
        pacing (cpuLoop config cpu dir samples remaining i fs).1 =
          List.replicate remaining (Event.get (cpuTimeout cpu) (cpuURL config cpu)) ∧
        writes (cpuLoop config cpu dir samples remaining i fs).1 =
          (List.range' i remaining).filterMap (fun j =>
            match (samples j).get, (samples j).read with
            | none, .ok data => some (cpuFile dir (samples j).now, data)
            | _, _ => none) := by
  intro remaining
  induction remaining with
  | zero => intro i fs; simp [cpuLoop, sleeps, requests, starts, pacing, writes]
  | succ n ih =>
    intro i fs
    unfold cpuLoop
    cases hg : (samples i).get with
    | some e =>
      obtain ⟨h1, h2, h3, h4, h5⟩ := ih (i + 1) fs
      simp [sleeps, requests, starts, pacing, writes, h1, h2, h3, h4, h5, hg,
        List.replicate_succ, List.range'_succ]
    | none =>
      cases hr : (samples i).read with
      | error e =>
        obtain ⟨h1, h2, h3, h4, h5⟩ := ih (i + 1) fs
        simp [sleeps, requests, starts, pacing, writes, h1, h2, h3, h4, h5, hg, hr,
          List.replicate_succ, List.range'_succ]
      | ok data =>
        obtain ⟨h1, h2, h3, h4, h5⟩ :=
          ih (i + 1) (WriteFile fs (cpuFile dir (samples i).now) data (samples i).write).2
        simp [sleeps, requests, starts, pacing, writes, h1, h2, h3, h4, h5, hg, hr,
          List.replicate_succ, List.range'_succ]

/-! ## Lemmas on the samplers -/

/-- The trace of the heap sampler once its subdirectory exists: directory creation, the
grace period, the loop, then the viewer launch when `OpenProfiles` is set. -/
theorem collectHeapProfiles_trace (config : Config) (heap : HeapProfileConfig)
    (pm : portmanager.PortManager) (env : SamplerEnv) (fs : FS) (hdir : env.mkdir = none) :
    (collectHeapProfiles config heap pm env fs).trace =
      [Event.mkdirAll (config.OutputDir ++ "/heap") 0o755, Event.sleep config.GracePeriod] ++
      (heapLoop config heap (config.OutputDir ++ "/heap") env.samples
          heap.SampleCount.toNat 0 fs).1 ++
      (if config.OpenProfiles then
        (openProfilesInBrowser pm (config.OutputDir ++ "/heap") "heap" env.viewer
          (heapLoop config heap (config.OutputDir ++ "/heap") env.samples
            heap.SampleCount.toNat 0 fs).2).trace
      else []) := by
  unfold collectHeapProfiles
  simp only [hdir]
  split <;> simp

/-- The trace of the CPU sampler once its subdirectory exists. -/
theorem collectCPUProfile_trace (config : Config) (cpu : CPUProfileConfig)
    (pm : portmanager.PortManager) (env : SamplerEnv) (fs : FS) (hdir : env.mkdir = none) :
    (collectCPUProfile config cpu pm env fs).trace =
      [Event.mkdirAll (config.OutputDir ++ "/cpu") 0o755, Event.sleep config.GracePeriod] ++
      (cpuLoop config cpu (config.OutputDir ++ "/cpu") env.samples
          cpu.SampleCount.toNat 0 fs).1 ++
      (if config.OpenProfiles then
        (openProfilesInBrowser pm (config.OutputDir ++ "/cpu") "cpu" env.viewer
          (cpuLoop config cpu (config.OutputDir ++ "/cpu") env.samples
            cpu.SampleCount.toNat 0 fs).2).trace
      else []) := by
  unfold collectCPUProfile
  simp only [hdir]
  split <;> simp

theorem starts_if_viewer (pm : portmanager.PortManager) (dir ty : String) (env : ViewerEnv)
    (fs : FS) (b : Bool) :
    starts (if b then (openProfilesInBrowser pm dir ty env fs).trace else []) =
      if b = true ∧ (portmanager.GetPort env.avail pm).err = none then
        [viewerArgv (portmanager.GetPort env.avail pm).port dir]
      else [] := by
  cases b
  · simp [starts]
  · simp only [if_true, true_and]
    rw [openProfilesInBrowser_starts]
    cases (portmanager.GetPort env.avail pm).err <;> simp

/-- The commands the heap sampler starts. -/
theorem collectHeapProfiles_starts (config : Config) (heap : HeapProfileConfig)
    (pm : portmanager.PortManager) (env : SamplerEnv) (fs : FS) :
    starts (collectHeapProfiles config heap pm env fs).trace =
      if env.mkdir = none ∧ config.OpenProfiles = true ∧
          (portmanager.GetPort env.viewer.avail pm).err = none then
        [viewerArgv (portmanager.GetPort env.viewer.avail pm).port (config.OutputDir ++ "/heap")]
      else [] := by
  cases hdir : env.mkdir with
  | some e => simp [collectHeapProfiles, hdir, starts]
  | none =>
    rw [collectHeapProfiles_trace config heap pm env fs hdir, starts_append, starts_append,
      (heapLoop_trace config heap _ env.samples _ 0 fs).2.2.1, starts_if_viewer]
    simp [starts]

/-- The commands the CPU sampler starts. -/
theorem collectCPUProfile_starts (config : Config) (cpu : CPUProfileConfig)
    (pm : portmanager.PortManager) (env : SamplerEnv) (fs : FS) :
    starts (collectCPUProfile config cpu pm env fs).trace =
      if env.mkdir = none ∧ config.OpenProfiles = true ∧
          (portmanager.GetPort env.viewer.avail pm).err = none then
        [viewerArgv (portmanager.GetPort env.viewer.avail pm).port (config.OutputDir ++ "/cpu")]
      else [] := by
  cases hdir : env.mkdir with
  | some e => simp [collectCPUProfile, hdir, starts]
  | none =>
    rw [collectCPUProfile_trace config cpu pm env fs hdir, starts_append, starts_append,
      (cpuLoop_trace config cpu _ env.samples _ 0 fs).2.2.1, starts_if_viewer]
    simp [starts]

/-- The processes the heap sampler spawns. -/
theorem collectHeapProfiles_children (config : Config) (heap : HeapProfileConfig)
    (pm : portmanager.PortManager) (env : SamplerEnv) (fs : FS) :
    (collectHeapProfiles config heap pm env fs).children =
      if env.mkdir = none ∧ config.OpenProfiles = true ∧
          (portmanager.GetPort env.viewer.avail pm).err = none ∧ env.viewer.start = none then
        [viewerArgv (portmanager.GetPort env.viewer.avail pm).port (config.OutputDir ++ "/heap")]
      else [] := by
  unfold collectHeapProfiles
  cases hdir : env.mkdir with
  | some e => simp
  | none =>
    cases hb : config.OpenProfiles with
    | false => simp
    | true => simp [openProfilesInBrowser_children]

/-- The processes the CPU sampler spawns. -/
theorem collectCPUProfile_children (config : Config) (cpu : CPUProfileConfig)
    (pm : portmanager.PortManager) (env : SamplerEnv) (fs : FS) :
    (collectCPUProfile config cpu pm env fs).children =
      if env.mkdir = none ∧ config.OpenProfiles = true ∧
          (portmanager.GetPort env.viewer.avail pm).err = none ∧ env.viewer.start = none then
        [viewerArgv (portmanager.GetPort env.viewer.avail pm).port (config.OutputDir ++ "/cpu")]
      else [] := by
  unfold collectCPUProfile
  cases hdir : env.mkdir with
  | some e => simp
  | none =>
    cases hb : config.OpenProfiles with
    | false => simp
    | true => simp [openProfilesInBrowser_children]

/-- Around a `start` event of a sampler trace: the part before it is the whole of the
directory creation, the grace period and the loop; the part after it belongs to the
viewer launch. Stated for any trace of that shape. -/
theorem start_after_loop (head loop : List Event) (pm : portmanager.PortManager)
    (dir ty : String) (env : ViewerEnv) (fs : FS) (b : Bool)
    (hhead : starts head = []) (hloop : starts loop = [])
    (pre : List Event) (argv : List String) (post : List Event)
    (h : head ++ loop ++ (if b then (openProfilesInBrowser pm dir ty env fs).trace else []) =
      pre ++ Event.start argv :: post) :
    b = true ∧ (portmanager.GetPort env.avail pm).err = none ∧
      argv = viewerArgv (portmanager.GetPort env.avail pm).port dir ∧
      pre = head ++ loop ∧
      starts post = [] ∧ requests post = [] ∧ writes post = [] ∧ sleeps post = [] := by
  have hs := congrArg starts h
  rw [starts_append, starts_append, starts_append, hhead, hloop, starts_if_viewer] at hs
  by_cases hc : b = true ∧ (portmanager.GetPort env.avail pm).err = none
  · obtain ⟨hb, hp⟩ := hc
    obtain ⟨tail, ht, t1, t2, t3, t4⟩ := openProfilesInBrowser_shape pm dir ty env fs hp
    rw [hb, if_pos rfl, ht] at h
    have hl : starts (head ++ loop) = [] := by rw [starts_append, hhead, hloop]; rfl
    obtain ⟨e1, e2, e3⟩ := start_split_unique _ tail t1 (head ++ loop) pre argv post hl h
    rw [e3]
    exact ⟨hb, hp, e2, e1, t1, t2, t3, t4⟩
  · rw [if_neg hc] at hs
    simp [starts] at hs

/-! ## Lemmas on files -/

theorem inDir_heapFile (dir : String) (now : Time) : inDir dir (heapFile dir now) := by
  unfold inDir heapFile
  refine ⟨"heap_".data ++ now.Format.data ++ ".prof".data, ?_⟩
  simp only [String.data_append, List.append_assoc, List.cons_append, List.nil_append]

theorem inDir_cpuFile (dir : String) (now : Time) : inDir dir (cpuFile dir now) := by
  unfold inDir cpuFile
  refine ⟨"cpu_".data ++ now.Format.data ++ ".prof".data, ?_⟩
  simp only [String.data_append, List.append_assoc, List.cons_append, List.nil_append]

/-- Two capture times give the same heap file exactly when they format alike. -/
theorem heapFile_inj {dir : String} {a b : Time} (h : heapFile dir a = heapFile dir b) :
    a.Format = b.Format := by
  unfold heapFile at h
  have hd := congrArg String.data h
  simp only [String.data_append, List.append_assoc] at hd
  have h1 := List.append_cancel_left (List.append_cancel_left hd)
  exact String.ext (List.append_cancel_right h1)

/-- Two capture times give the same CPU file exactly when they format alike. -/
theorem cpuFile_inj {dir : String} {a b : Time} (h : cpuFile dir a = cpuFile dir b) :
    a.Format = b.Format := by
  unfold cpuFile at h
  have hd := congrArg String.data h
  simp only [String.data_append, List.append_assoc] at hd
  have h1 := List.append_cancel_left (List.append_cancel_left hd)
  exact String.ext (List.append_cancel_right h1)

/-- Writing a file under `dir` adds its path to the artifacts of `dir`, if it was not
among them already. -/
theorem artifacts_put (fs : FS) (dir path : String) (data : Bytes) (h : inDir dir path) :
    artifacts (fs.put path data) dir = insert path (artifacts fs dir) := by
  ext x
  simp only [artifacts, FS.put, Finset.mem_filter, List.mem_toFinset, List.mem_map,
    List.map_cons, List.mem_cons, Finset.mem_insert, List.mem_filter, decide_eq_true_eq]
  constructor
  · rintro ⟨hx | ⟨e, ⟨he, _⟩, rfl⟩, hin⟩
    · exact Or.inl hx
    · exact Or.inr ⟨⟨e, he, rfl⟩, hin⟩
  · rintro (rfl | ⟨⟨e, he, rfl⟩, hin⟩)
    · exact ⟨Or.inl rfl, h⟩
    · by_cases hp : e.1 = path
      · exact ⟨Or.inl hp, hin⟩
      · exact ⟨Or.inr ⟨e, ⟨he, hp⟩, rfl⟩, hin⟩

/-- The files under `dir` after a heap loop all of whose requests, reads and writes
succeed: those present before, and one per capture time. -/
theorem heapLoop_artifacts (config : Config) (heap : HeapProfileConfig) (dir : String)
    (samples : Nat → Sample) :
    ∀ (remaining i : Nat) (fs : FS),
      (∀ j, i ≤ j → j < i + remaining → (samples j).get = none ∧
        (∃ data, (samples j).read = .ok data) ∧ (samples j).write = .ok) →
      artifacts (heapLoop config heap dir samples remaining i fs).2 dir =
        artifacts fs dir ∪
          ((List.range' i remaining).map (fun j => heapFile dir (samples j).now)).toFinset := by
  intro remaining
  induction remaining with
  | zero => intro i fs _; simp [heapLoop]
  | succ n ih =>
    intro i fs h
    obtain ⟨hg, ⟨data, hr⟩, hw⟩ := h i (le_refl _) (by omega)
    unfold heapLoop
    simp only [hg, hr, hw, WriteFile]
    rw [ih (i + 1) _ (fun j h1 h2 => h j (by omega) (by omega)),
      artifacts_put _ _ _ _ (inDir_heapFile dir _)]
    ext x
    simp only [List.range'_succ, List.map_cons, List.toFinset_cons, Finset.mem_union,
      Finset.mem_insert]
    tauto

/-- The files under `dir` after a CPU loop all of whose requests, reads and writes
succeed. -/
theorem cpuLoop_artifacts (config : Config) (cpu : CPUProfileConfig) (dir : String)
    (samples : Nat → Sample) :
    ∀ (remaining i : Nat) (fs : FS),
      (∀ j, i ≤ j → j < i + remaining → (samples j).get = none ∧
        (∃ data, (samples j).read = .ok data) ∧ (samples j).write = .ok) →
      artifacts (cpuLoop config cpu dir samples remaining i fs).2 dir =
        artifacts fs dir ∪
          ((List.range' i remaining).map (fun j => cpuFile dir (samples j).now)).toFinset := by
  intro remaining
  induction remaining with
  | zero => intro i fs _; simp [cpuLoop]
  | succ n ih =>
    intro i fs h
    obtain ⟨hg, ⟨data, hr⟩, hw⟩ := h i (le_refl _) (by omega)
    unfold cpuLoop
    simp only [hg, hr, hw, WriteFile]
    rw [ih (i + 1) _ (fun j h1 h2 => h j (by omega) (by omega)),
      artifacts_put _ _ _ _ (inDir_cpuFile dir _)]
    ext x
    simp only [List.range'_succ, List.map_cons, List.toFinset_cons, Finset.mem_union,
      Finset.mem_insert]
    tauto

/-- The file system a sampler leaves is the one its loop leaves. -/
theorem collectHeapProfiles_fs (config : Config) (heap : HeapProfileConfig)
    (pm : portmanager.PortManager) (env : SamplerEnv) (fs : FS) (hdir : env.mkdir = none) :
    (collectHeapProfiles config heap pm env fs).fs =
      (heapLoop config heap (config.OutputDir ++ "/heap") env.samples
        heap.SampleCount.toNat 0 fs).2 := by
  unfold collectHeapProfiles
  simp only [hdir]
  split
  · exact (openProfilesInBrowser_quiet pm _ _ env.viewer _).2.2.2.2
  · rfl

theorem collectCPUProfile_fs (config : Config) (cpu : CPUProfileConfig)
    (pm : portmanager.PortManager) (env : SamplerEnv) (fs : FS) (hdir : env.mkdir = none) :
    (collectCPUProfile config cpu pm env fs).fs =
      (cpuLoop config cpu (config.OutputDir ++ "/cpu") env.samples
        cpu.SampleCount.toNat 0 fs).2 := by
  unfold collectCPUProfile
  simp only [hdir]
  split
  · exact (openProfilesInBrowser_quiet pm _ _ env.viewer _).2.2.2.2
  · rfl

/-- Counting the union of a set of files with one file per index below `k`. -/
theorem card_files (before : Finset String) (k : Nat) (file : Nat → String) :
    (before ∪ (Finset.range k).image file).card ≤ before.card + k ∧
      (before = ∅ → (∀ i j, i < k → j < k → file i = file j → i = j) →
        (before ∪ (Finset.range k).image file).card = k) := by
  constructor
  · calc (before ∪ (Finset.range k).image file).card
        ≤ before.card + ((Finset.range k).image file).card := Finset.card_union_le _ _
      _ ≤ before.card + (Finset.range k).card :=
          Nat.add_le_add_left Finset.card_image_le _
      _ = before.card + k := by rw [Finset.card_range]
  · intro hb hinj
    rw [hb, Finset.empty_union, Finset.card_image_of_injOn, Finset.card_range]
    intro i hi j hj hij
    exact hinj i j (Finset.mem_range.mp hi) (Finset.mem_range.mp hj) hij

/-! ## Lemmas on floating point -/

/-- Rounding to the nearest integer does not cross an integer. -/
theorem roundHalfEven_bracket (x : ℚ) (n : Int) :
    ((n : ℚ) ≤ x → n ≤ roundHalfEven x) ∧ (x ≤ (n : ℚ) → roundHalfEven x ≤ n) := by
  have hfl : (⌊x⌋ : ℚ) ≤ x := Int.floor_le x
  constructor
  · intro h
    have : n ≤ ⌊x⌋ := Int.le_floor.mpr h
    unfold roundHalfEven
    simp only
    split_ifs <;> omega
  · intro h
    have h1 : ⌊x⌋ ≤ n := by
      have : ((⌊x⌋ : Int) : ℚ) ≤ (n : ℚ) := le_trans hfl h
      exact_mod_cast this
    unfold roundHalfEven
    simp only
    split_ifs with c1 c2 c3
    · exact h1
    · have : ((⌊x⌋ : Int) : ℚ) < (n : ℚ) := by linarith
      have : ⌊x⌋ < n := by exact_mod_cast this
      omega
    · exact h1
    · have hx : (1 : ℚ) / 2 ≤ x - ⌊x⌋ := not_lt.mp c1
      have : ((⌊x⌋ : Int) : ℚ) < (n : ℚ) := by linarith
      have : ⌊x⌋ < n := by exact_mod_cast this
      omega

/-- Rounding to `float64` does not cross an integer, for arguments below `2 ^ 53` in
magnitude: there every integer is a multiple of the spacing of the floats. -/
theorem toFloat64_bracket (x : ℚ) (n : Int) (hx : |x| < 2 ^ (53 : ℤ)) :
    ((n : ℚ) ≤ x → (n : ℚ) ≤ toFloat64 x) ∧ (x ≤ (n : ℚ) → toFloat64 x ≤ (n : ℚ)) := by
  by_cases h0 : x = 0
  · subst h0
    simp [toFloat64]
  · have habs : 0 < |x| := abs_pos.mpr h0
    have hlog : Int.log 2 |x| < 53 :=
      (Int.lt_zpow_iff_log_lt (by norm_num) habs).mp (by exact_mod_cast hx)
    obtain ⟨k, hk⟩ : ∃ k : ℕ, (max (Int.log 2 |x|) (-1022)) - 52 = -(k : ℤ) := by
      refine ⟨(52 - max (Int.log 2 |x|) (-1022)).toNat, ?_⟩
      have : max (Int.log 2 |x|) (-1022) ≤ 52 := by
        rcases max_cases (Int.log 2 |x|) (-1022) with ⟨h, _⟩ | ⟨h, _⟩ <;> omega
      omega
    have hulp : (2 : ℚ) ^ (max (Int.log 2 |x|) (-1022) - 52) = ((2 : ℚ) ^ k)⁻¹ := by
      rw [hk, zpow_neg, zpow_natCast]
    have hpos : (0 : ℚ) < (2 : ℚ) ^ k := by positivity
    have hval : toFloat64 x = (roundHalfEven (x * 2 ^ k) : ℚ) / 2 ^ k := by
      unfold toFloat64
      simp only [h0, if_false, hulp, div_inv_eq_mul]
      rw [div_eq_mul_inv]
    rw [hval]
    have hcast : ((n * 2 ^ k : Int) : ℚ) = (n : ℚ) * 2 ^ k := by push_cast; ring
    constructor
    · intro h
      have h1 : ((n * 2 ^ k : Int) : ℚ) ≤ x * 2 ^ k := by
        rw [hcast]; exact mul_le_mul_of_nonneg_right h hpos.le
      have h2 := (roundHalfEven_bracket (x * 2 ^ k) (n * 2 ^ k)).1 h1
      rw [le_div_iff₀ hpos, ← hcast]
      exact_mod_cast h2
    · intro h
      have h1 : x * 2 ^ k ≤ ((n * 2 ^ k : Int) : ℚ) := by
        rw [hcast]; exact mul_le_mul_of_nonneg_right h hpos.le
      have h2 := (roundHalfEven_bracket (x * 2 ^ k) (n * 2 ^ k)).2 h1
      rw [div_le_iff₀ hpos, ← hcast]
      exact_mod_cast h2

/-- An integer below `2 ^ 53` in magnitude is a `float64`. -/
theorem toFloat64_intCast (n : Int) (h : |(n : ℚ)| < 2 ^ (53 : ℤ)) : toFloat64 (n : ℚ) = n :=
  le_antisymm ((toFloat64_bracket n n h).2 le_rfl) ((toFloat64_bracket n n h).1 le_rfl)

theorem abs_lt_two_pow_53 (x : ℚ) (h1 : -9007199254740992 < x) (h2 : x < 9007199254740992) :
    |x| < 2 ^ (53 : ℤ) := by
  have : (2 : ℚ) ^ (53 : ℤ) = 9007199254740992 := by norm_num
  rw [this]
  exact abs_lt.mpr ⟨h1, h2⟩

/-- Go's truncated quotient and remainder of a duration by one second. -/
theorem tdiv_tmod_second (d : Int) (hd : IsInt64 d) :
    1000000000 * Int.tdiv d 1000000000 + Int.tmod d 1000000000 = d ∧
      -9223372036 ≤ Int.tdiv d 1000000000 ∧ Int.tdiv d 1000000000 ≤ 9223372036 ∧
      (0 ≤ d → 0 ≤ Int.tdiv d 1000000000 ∧ 0 ≤ Int.tmod d 1000000000 ∧
        Int.tmod d 1000000000 < 1000000000) ∧
      (d < 0 → Int.tdiv d 1000000000 ≤ 0 ∧ -1000000000 < Int.tmod d 1000000000 ∧
        Int.tmod d 1000000000 ≤ 0) := by
  obtain ⟨h1, h2⟩ := hd
  have hsum := Int.tdiv_add_tmod d 1000000000
  by_cases h0 : 0 ≤ d
  · have hq : Int.tdiv d 1000000000 = d / 1000000000 := Int.tdiv_eq_ediv h0 (by norm_num)
    rw [hq] at hsum ⊢
    omega
  · have hn : 0 ≤ -d := by omega
    have hq : Int.tdiv d 1000000000 = -((-d) / 1000000000) := by
      have := Int.neg_tdiv (-d) 1000000000
      rw [neg_neg] at this
      rw [this, Int.tdiv_eq_ediv hn (by norm_num)]
    rw [hq] at hsum ⊢
    omega

/-- The float `d.Seconds()` lies within one of the whole seconds of `d`, on the side of
the remainder. -/
theorem Seconds_bracket (d : Int) (hd : IsInt64 d) :
    (0 ≤ d → ((Int.tdiv d 1000000000 : Int) : ℚ) ≤ Duration.Seconds d ∧
        Duration.Seconds d ≤ ((Int.tdiv d 1000000000 + 1 : Int) : ℚ)) ∧
      (d < 0 → ((Int.tdiv d 1000000000 - 1 : Int) : ℚ) ≤ Duration.Seconds d ∧
        Duration.Seconds d ≤ ((Int.tdiv d 1000000000 : Int) : ℚ)) := by
  obtain ⟨-, hs1, hs2, hpos, hneg⟩ := tdiv_tmod_second d hd
  have hsq1 : (-9223372036 : ℚ) ≤ ((Int.tdiv d 1000000000 : Int) : ℚ) := by exact_mod_cast hs1
  have hsq2 : ((Int.tdiv d 1000000000 : Int) : ℚ) ≤ 9223372036 := by exact_mod_cast hs2
  have hsec : toFloat64 ((Int.tdiv d 1000000000 : Int) : ℚ) = (Int.tdiv d 1000000000 : Int) :=
    toFloat64_intCast _ (abs_lt_two_pow_53 _ (by linarith) (by linarith))
  have hbil : toFloat64 (1000000000 : ℚ) = 1000000000 := by
    have := toFloat64_intCast 1000000000 (abs_lt_two_pow_53 _ (by norm_num) (by norm_num))
    exact_mod_cast this
  have hn1 : (-1000000000 : ℚ) < ((Int.tmod d 1000000000 : Int) : ℚ) := by
    by_cases h0 : 0 ≤ d
    · have := (hpos h0).2.1
      have : (0 : ℚ) ≤ ((Int.tmod d 1000000000 : Int) : ℚ) := by exact_mod_cast this
      linarith
    · exact_mod_cast (hneg (by omega)).2.1
  have hn2 : ((Int.tmod d 1000000000 : Int) : ℚ) < 1000000000 := by
    by_cases h0 : 0 ≤ d
    · exact_mod_cast (hpos h0).2.2
    · have := (hneg (by omega)).2.2
      have : ((Int.tmod d 1000000000 : Int) : ℚ) ≤ 0 := by exact_mod_cast this
      linarith
  have hnsec : toFloat64 ((Int.tmod d 1000000000 : Int) : ℚ) = (Int.tmod d 1000000000 : Int) :=
    toFloat64_intCast _ (abs_lt_two_pow_53 _ (by linarith) (by linarith))
  have hfrac : |((Int.tmod d 1000000000 : Int) : ℚ) / 1000000000| < 2 ^ (53 : ℤ) := by
    apply abs_lt_two_pow_53
    · rw [lt_div_iff₀ (by norm_num)]; linarith
    · rw [div_lt_iff₀ (by norm_num)]; linarith
  have hq := toFloat64_bracket (((Int.tmod d 1000000000 : Int) : ℚ) / 1000000000)
  have hqlo : (-1 : ℚ) ≤ toFloat64 (((Int.tmod d 1000000000 : Int) : ℚ) / 1000000000) := by
    have := (hq (-1) hfrac).1 (by
      push_cast
      rw [le_div_iff₀ (by norm_num)]; linarith)
    exact_mod_cast this
  have hqhi : toFloat64 (((Int.tmod d 1000000000 : Int) : ℚ) / 1000000000) ≤ 1 := by
    have := (hq 1 hfrac).2 (by
      push_cast
      rw [div_le_iff₀ (by norm_num)]; linarith)
    exact_mod_cast this
  have hsum : |((Int.tdiv d 1000000000 : Int) : ℚ) +
      toFloat64 (((Int.tmod d 1000000000 : Int) : ℚ) / 1000000000)| < 2 ^ (53 : ℤ) :=
    abs_lt_two_pow_53 _ (by linarith) (by linarith)
  have hS : Duration.Seconds d = toFloat64 (((Int.tdiv d 1000000000 : Int) : ℚ) +
      toFloat64 (((Int.tmod d 1000000000 : Int) : ℚ) / 1000000000)) := by
    unfold Duration.Seconds
    simp only [hsec, hnsec, hbil]
  rw [hS]
  constructor
  · intro h0
    have hnn : (0 : ℚ) ≤ ((Int.tmod d 1000000000 : Int) : ℚ) := by exact_mod_cast (hpos h0).2.1
    have hq0 : (0 : ℚ) ≤ toFloat64 (((Int.tmod d 1000000000 : Int) : ℚ) / 1000000000) := by
      have := (hq 0 hfrac).1 (by push_cast; positivity)
      exact_mod_cast this
    constructor
    · exact (toFloat64_bracket _ _ hsum).1 (by linarith)
    · exact (toFloat64_bracket _ _ hsum).2 (by push_cast; linarith)
  · intro h0
    have hnn : ((Int.tmod d 1000000000 : Int) : ℚ) ≤ 0 := by exact_mod_cast (hneg h0).2.2
    have hq0 : toFloat64 (((Int.tmod d 1000000000 : Int) : ℚ) / 1000000000) ≤ 0 := by
      have := (hq 0 hfrac).2 (by
        push_cast
        exact div_nonpos_of_nonpos_of_nonneg hnn (by norm_num))
      exact_mod_cast this
    constructor
    · exact (toFloat64_bracket _ _ hsum).1 (by push_cast; linarith)
    · exact (toFloat64_bracket _ _ hsum).2 (by linarith)

/-- The whole number `int(d.Seconds())` is the truncated quotient of `d` by one second,
or one further from zero. -/
theorem truncToInt_Seconds (d : Int) (hd : IsInt64 d) :
    (0 ≤ d → Int.tdiv d 1000000000 ≤ truncToInt (Duration.Seconds d) ∧
        truncToInt (Duration.Seconds d) ≤ Int.tdiv d 1000000000 + 1) ∧
      (d < 0 → Int.tdiv d 1000000000 - 1 ≤ truncToInt (Duration.Seconds d) ∧
        truncToInt (Duration.Seconds d) ≤ Int.tdiv d 1000000000) := by
  obtain ⟨hp, hn⟩ := Seconds_bracket d hd
  obtain ⟨-, -, -, hpos, hneg⟩ := tdiv_tmod_second d hd
  constructor
  · intro h0
    obtain ⟨h1, h2⟩ := hp h0
    have hs : (0 : ℚ) ≤ Duration.Seconds d := by
      have : (0 : ℚ) ≤ ((Int.tdiv d 1000000000 : Int) : ℚ) := by exact_mod_cast (hpos h0).1
      linarith
    unfold truncToInt
    rw [if_pos hs]
    constructor
    · exact Int.le_floor.mpr h1
    · have : ((⌊Duration.Seconds d⌋ : Int) : ℚ) ≤ ((Int.tdiv d 1000000000 + 1 : Int) : ℚ) :=
        le_trans (Int.floor_le _) h2
      exact_mod_cast this
  · intro h0
    obtain ⟨h1, h2⟩ := hn h0
    have hle : ((Int.tdiv d 1000000000 : Int) : ℚ) ≤ 0 := by exact_mod_cast (hneg h0).1
    unfold truncToInt
    split_ifs with hs
    · have hz : Duration.Seconds d = 0 := le_antisymm (by linarith) hs
      have hz2 : ((Int.tdiv d 1000000000 : Int) : ℚ) = 0 := le_antisymm hle (by linarith)
      have hz3 : Int.tdiv d 1000000000 = 0 := by exact_mod_cast hz2
      rw [hz, hz3]
      simp
    · constructor
      · have : ((Int.tdiv d 1000000000 - 1 : Int) : ℚ) ≤ ((⌈Duration.Seconds d⌉ : Int) : ℚ) :=
          le_trans h1 (Int.le_ceil _)
        exact_mod_cast this
      · exact Int.ceil_le.mpr h2

/-- The value of `toFloat64` from the binade of the argument and the rounded
significand. -/
theorem toFloat64_eq (x : ℚ) (e m : ℤ) (hpos : 0 < |x|)
    (hlo : (2 : ℚ) ^ e ≤ |x|) (hhi : |x| < (2 : ℚ) ^ (e + 1)) (he : -1022 ≤ e)
    (hm : roundHalfEven (x / 2 ^ (e - 52)) = m) : toFloat64 x = m * 2 ^ (e - 52) := by
  have h1 : e ≤ Int.log 2 |x| :=
    (Int.zpow_le_iff_le_log (by norm_num) hpos).mp (by exact_mod_cast hlo)
  have h2 : Int.log 2 |x| < e + 1 :=
    (Int.lt_zpow_iff_log_lt (by norm_num) hpos).mp (by exact_mod_cast hhi)
  have h3 : Int.log 2 |x| = e := by omega
  have h0 : x ≠ 0 := abs_pos.mp hpos
  unfold toFloat64
  simp only [h0, if_false, h3, max_eq_left he, hm]

/-- Rounding above the midpoint goes up. -/
theorem roundHalfEven_eq_succ (x : ℚ) (f : ℤ) (h1 : (f : ℚ) + 1 / 2 < x) (h2 : x < (f : ℚ) + 1) :
    roundHalfEven x = f + 1 := by
  have hf : ⌊x⌋ = f := Int.floor_eq_iff.mpr ⟨by linarith, h2⟩
  unfold roundHalfEven
  simp only [hf]
  rw [if_neg (by linarith), if_pos (by linarith)]

/-- Rounding below the midpoint goes down. -/
theorem roundHalfEven_eq_floor (x : ℚ) (f : ℤ) (h1 : (f : ℚ) ≤ x) (h2 : x < (f : ℚ) + 1 / 2) :
    roundHalfEven x = f := by
  have hf : ⌊x⌋ = f := Int.floor_eq_iff.mpr ⟨h1, by linarith⟩
  unfold roundHalfEven
  simp only [hf]
  rw [if_pos (by linarith)]

/-- The float `d.Seconds()` once the quotient and the remainder of `d` are known. -/
theorem Seconds_eq (d sec nsec : Int) (hq : Int.tdiv d 1000000000 = sec)
    (hr : Int.tmod d 1000000000 = nsec)
    (hs1 : (-9007199254740992 : ℚ) < sec) (hs2 : (sec : ℚ) < 9007199254740992)
    (hn1 : (-9007199254740992 : ℚ) < nsec) (hn2 : (nsec : ℚ) < 9007199254740992) :
    Duration.Seconds d = toFloat64 ((sec : ℚ) + toFloat64 ((nsec : ℚ) / 1000000000)) := by
  have hsec : toFloat64 (sec : ℚ) = sec := toFloat64_intCast _ (abs_lt_two_pow_53 _ hs1 hs2)
  have hnsec : toFloat64 (nsec : ℚ) = nsec := toFloat64_intCast _ (abs_lt_two_pow_53 _ hn1 hn2)
  have hbil : toFloat64 (1000000000 : ℚ) = 1000000000 := by
    have := toFloat64_intCast 1000000000 (abs_lt_two_pow_53 _ (by norm_num) (by norm_num))
    exact_mod_cast this
  unfold Duration.Seconds
  simp only [hq, hr]
  rw [hsec, hnsec, hbil]

/-- For 16777216.999999999 seconds the float conversion rounds up to 16777217. -/
theorem cpuSeconds_roundingCPU : cpuSeconds roundingCPU = 16777217 := by
  have hfrac : toFloat64 (((999999999 : Int) : ℚ) / 1000000000) =
      (9007199245733793 : ℤ) * 2 ^ ((-1 : ℤ) - 52) := by
    apply toFloat64_eq _ (-1) _
    · norm_num
    · rw [abs_of_pos (by norm_num)]; norm_num
    · rw [abs_of_pos (by norm_num)]; norm_num
    · norm_num
    · apply roundHalfEven_eq_succ _ 9007199245733792 <;> norm_num
  have hsum : toFloat64 (((16777216 : Int) : ℚ) +
      (9007199245733793 : ℤ) * 2 ^ ((-1 : ℤ) - 52)) =
      (4503599895805952 : ℤ) * 2 ^ ((24 : ℤ) - 52) := by
    apply toFloat64_eq _ 24 _
    · norm_num
    · rw [abs_of_pos (by norm_num)]; norm_num
    · rw [abs_of_pos (by norm_num)]; norm_num
    · norm_num
    · apply roundHalfEven_eq_succ _ 4503599895805951 <;> norm_num
  unfold cpuSeconds
  rw [Seconds_eq roundingCPU.Duration 16777216 999999999 (by decide) (by decide)
    (by norm_num) (by norm_num) (by norm_num) (by norm_num), hfrac, hsum]
  unfold truncToInt
  norm_num

/-- For the largest `time.Duration` the sampler asks for 9223372036 seconds. -/
theorem cpuSeconds_longestCPU : cpuSeconds longestCPU = 9223372036 := by
  have hfrac : toFloat64 (((854775807 : Int) : ℚ) / 1000000000) =
      (7699136011781030 : ℤ) * 2 ^ ((-1 : ℤ) - 52) := by
    apply toFloat64_eq _ (-1) _
    · norm_num
    · rw [abs_of_pos (by norm_num)]; norm_num
    · rw [abs_of_pos (by norm_num)]; norm_num
    · norm_num
    · apply roundHalfEven_eq_floor _ 7699136011781030 <;> norm_num
  have hsum : toFloat64 (((9223372036 : Int) : ℚ) +
      (7699136011781030 : ℤ) * 2 ^ ((-1 : ℤ) - 52)) =
      (4835703278458517 : ℤ) * 2 ^ ((33 : ℤ) - 52) := by
    apply toFloat64_eq _ 33 _
    · norm_num
    · rw [abs_of_pos (by norm_num)]; norm_num
    · rw [abs_of_pos (by norm_num)]; norm_num
    · norm_num
    · apply roundHalfEven_eq_succ _ 4835703278458516 <;> norm_num
  unfold cpuSeconds
  rw [Seconds_eq longestCPU.Duration 9223372036 854775807 (by decide) (by decide)
    (by norm_num) (by norm_num) (by norm_num) (by norm_num), hfrac, hsum]
  unfold truncToInt
  norm_num

/-- The requests of the CPU sampler once its subdirectory exists. -/
theorem loop_requests_cpu (config : Config) (cpu : CPUProfileConfig)
    (pm : portmanager.PortManager) (env : SamplerEnv) (fs : FS) (hdir : env.mkdir = none) :
    requests (collectCPUProfile config cpu pm env fs).trace =
      List.replicate cpu.SampleCount.toNat (cpuTimeout cpu, cpuURL config cpu) := by
  rw [collectCPUProfile_trace config cpu pm env fs hdir, requests_append, requests_append,
    (cpuLoop_trace config cpu _ env.samples _ 0 fs).2.1]
  have hv : requests (if config.OpenProfiles then
      (openProfilesInBrowser pm (config.OutputDir ++ "/cpu") "cpu" env.viewer
        (cpuLoop config cpu (config.OutputDir ++ "/cpu") env.samples
          cpu.SampleCount.toNat 0 fs).2).trace else []) = [] := by
    split
    · exact (openProfilesInBrowser_quiet pm _ _ env.viewer _).2.1
    · rfl
  rw [hv]
  simp [requests]

/-! ## Lemmas on `RunProfile` -/

/-- What `RunProfile` hands the samplers for a non-nil configuration, when the output
directory can be created: the port and the output directory with their defaults filled
in, an allocator, and every other field as the caller left it; the grace period is
among the fields it does not touch. -/
theorem RunProfile_config (c : Config) (now : Time) :
    (RunProfile (some c) now none).config =
      some { c with
        Port := if c.Port = 0 then 6060 else c.Port
        OutputDir := if c.OutputDir = "" then "profile/profiles_" ++ now.Format
          else c.OutputDir
        portManager := match c.portManager with
          | none => some (portmanager.New 21000)
          | some pm => some pm } := by
  obtain ⟨port, dir, rate, grace, openProfiles, heap, cpu, pm⟩ := c
  unfold RunProfile
  by_cases hp : port = 0 <;> by_cases ho : dir = "" <;> cases pm <;> simp [hp, ho]

/-! ## Claims on the port allocator -/

/-- C1: for one well-formed `PortManager` and any sequence of `GetPort` calls, each under
its own availability oracle, the ports returned by the successful calls are strictly
increasing in call order, hence pairwise distinct: a port returned once is never
returned again. -/
theorem granted_ports_distinct (pm : portmanager.PortManager) (hwf : pm.WF)
    (oracles : List (Int → Bool)) :
    (portmanager.grantedPorts pm oracles).Pairwise (fun a b => a < b) ∧
      (portmanager.grantedPorts pm oracles).Nodup := by
  have h := portmanager.grantedPorts_increasing oracles pm hwf
  exact ⟨h, h.imp (fun hab => ne_of_lt hab)⟩

/-- Witness of C1: three calls on `New(21000)`, port 21000 taken during the first call,
every port free during the other two. -/
theorem granted_ports_distinct_witness :
    (portmanager.New 21000).WF ∧
      (portmanager.grantedPorts (portmanager.New 21000)
        [fun p => decide (p ≠ 21000), fun _ => true, fun _ => true]).Pairwise
          (fun a b => a < b) ∧
      (portmanager.grantedPorts (portmanager.New 21000)
        [fun p => decide (p ≠ 21000), fun _ => true, fun _ => true]).Nodup :=
  ⟨by decide, granted_ports_distinct (portmanager.New 21000) (by decide) _⟩

/-- C2: on every well-formed allocator state, when every port of the window
`[basePort, basePort + maxAttempts)` fails the bind probe, `GetPort` returns port 0 with
the exhaustion error and leaves `basePort` and `maxAttempts` as they were. -/
theorem exhausted_window_unchanged (avail : Int → Bool) (pm : portmanager.PortManager)
    (hwf : pm.WF)
    (hfail : ∀ p, pm.basePort ≤ p → p < pm.basePort + pm.maxAttempts →
      portmanager.listen avail p = false) :
    (portmanager.GetPort avail pm).err = some (portmanager.exhaustedError pm) ∧
      (portmanager.GetPort avail pm).port = 0 ∧
      (portmanager.GetPort avail pm).pm = pm := by
  rcases portmanager.GetPort_spec avail pm hwf with ⟨e1, e2, e3, _⟩ | ⟨p, p1, p2, p3, _⟩
  · exact ⟨e1, e2, e3⟩
  · rw [hfail p p1 p2] at p3; cases p3

/-- Witness of C2: `New(21000)` with the ports 21000 to 21019 taken. -/
theorem exhausted_window_unchanged_witness :
    (portmanager.New 21000).WF ∧
      (portmanager.GetPort (fun q => decide (21020 ≤ q)) (portmanager.New 21000)).err =
        some "no available ports found after 20 attempts starting from port 21000" ∧
      (portmanager.GetPort (fun q => decide (21020 ≤ q)) (portmanager.New 21000)).port = 0 ∧
      (portmanager.GetPort (fun q => decide (21020 ≤ q)) (portmanager.New 21000)).pm =
        portmanager.New 21000 :=
  ⟨by decide,
    exhausted_window_unchanged (fun q => decide (21020 ≤ q)) (portmanager.New 21000)
      (by decide) (by
        intro p h1 h2
        simp only [portmanager.New] at h1 h2
        simp only [portmanager.listen, Bool.and_eq_false_imp, decide_eq_true_eq,
          decide_eq_false_iff_not]
        omega)⟩

/-- C3: on every well-formed allocator state and under every availability oracle,
`GetPort` never lowers `basePort`; when it succeeds with port `P`, `P` is at least the
old `basePort`, the new `basePort` is `P + 1`, and the next call, whatever the
availability then, returns no port below `P + 1`. -/
theorem base_port_monotonic (avail : Int → Bool) (pm : portmanager.PortManager)
    (hwf : pm.WF) :
    pm.basePort ≤ (portmanager.GetPort avail pm).pm.basePort ∧
      ((portmanager.GetPort avail pm).err = none →
        pm.basePort ≤ (portmanager.GetPort avail pm).port ∧
        (portmanager.GetPort avail pm).pm.basePort = (portmanager.GetPort avail pm).port + 1 ∧
        ∀ next : Int → Bool,
          (portmanager.GetPort next (portmanager.GetPort avail pm).pm).err = none →
          (portmanager.GetPort avail pm).port + 1 ≤
            (portmanager.GetPort next (portmanager.GetPort avail pm).pm).port) := by
  obtain ⟨hwf2, hmono, _⟩ := portmanager.GetPort_preserves avail pm hwf
  refine ⟨hmono, ?_⟩
  intro h
  obtain ⟨h1, h2⟩ := portmanager.GetPort_success avail pm hwf h
  refine ⟨h1, h2, ?_⟩
  intro next hn
  have := (portmanager.GetPort_success next _ hwf2 hn).1
  omega

/-- Witness of C3: `New(21000)` with every port free. -/
theorem base_port_monotonic_witness :
    (portmanager.New 21000).WF ∧
      (portmanager.New 21000).basePort ≤
        (portmanager.GetPort (fun _ => true) (portmanager.New 21000)).pm.basePort :=
  ⟨by decide, (base_port_monotonic (fun _ => true) (portmanager.New 21000) (by decide)).1⟩

/-- C4: on every well-formed allocator state and under every availability oracle,
`GetPort` succeeds exactly when some port of the window
`[basePort, basePort + maxAttempts)` passes the bind probe; the port it then returns
lies in the window, passes the probe and is the smallest port of the window that does;
and `New` sets the budget `maxAttempts` to 20. -/
theorem first_available_port (avail : Int → Bool) (pm : portmanager.PortManager)
    (hwf : pm.WF) :
    ((portmanager.GetPort avail pm).err = none ↔
        ∃ p, pm.basePort ≤ p ∧ p < pm.basePort + pm.maxAttempts ∧
          portmanager.listen avail p = true) ∧
      ((portmanager.GetPort avail pm).err = none →
        pm.basePort ≤ (portmanager.GetPort avail pm).port ∧
        (portmanager.GetPort avail pm).port < pm.basePort + pm.maxAttempts ∧
        portmanager.listen avail (portmanager.GetPort avail pm).port = true ∧
        ∀ q, pm.basePort ≤ q → portmanager.listen avail q = true →
          (portmanager.GetPort avail pm).port ≤ q) ∧
      (∀ b : Int, (portmanager.New b).maxAttempts = 20 ∧ (portmanager.New b).basePort = b) := by
  refine ⟨?_, ?_, fun b => ⟨rfl, rfl⟩⟩
  · rcases portmanager.GetPort_spec avail pm hwf with
      ⟨e1, _, _, e4⟩ | ⟨p, p1, p2, p3, _, p5, _⟩
    · constructor
      · intro h; rw [e1] at h; cases h
      · rintro ⟨p, h1, h2, h3⟩
        rw [e4 p h1 h2] at h3; cases h3
    · exact ⟨fun _ => ⟨p, p1, p2, p3⟩, fun _ => p5⟩
  · intro h
    rcases portmanager.GetPort_spec avail pm hwf with
      ⟨e1, _⟩ | ⟨p, p1, p2, p3, p4, _, p6, _⟩
    · rw [e1] at h; cases h
    · rw [p6]
      refine ⟨p1, p2, p3, ?_⟩
      intro q hq hl
      by_contra hlt
      have := p4 q hq (by omega)
      rw [this] at hl; cases hl

/-- Witness of C4: `New(21000)` with the ports below 21003 taken returns 21003. -/
theorem first_available_port_witness :
    (portmanager.New 21000).WF ∧
      (portmanager.GetPort (fun q => decide (21003 ≤ q)) (portmanager.New 21000)).err = none ∧
      (portmanager.GetPort (fun q => decide (21003 ≤ q)) (portmanager.New 21000)).port = 21003 :=
  ⟨by decide,
    (first_available_port (fun q => decide (21003 ≤ q)) (portmanager.New 21000)
      (by decide)).1.mpr ⟨21003, by decide, by decide, by decide⟩,
    by decide⟩

/-! ## Claims on the samplers -/

/-- C5 as amended: once the subdirectory was created, when every request, body read and
file write of the `SampleCount` iterations succeeds, the files under the sampler's
subdirectory after the run are those that were there before and one per formatted
capture time, `<dir>/<kind>_<time>.prof`: at most `SampleCount` new files, and exactly
`SampleCount` files when the subdirectory held none before and the capture times of the
iterations format to pairwise different texts. Heap and CPU sampler alike. -/
theorem healthy_run_files (config : Config) (heap : HeapProfileConfig) (cpu : CPUProfileConfig)
    (pm : portmanager.PortManager) (env : SamplerEnv) (fs : FS) (hdir : env.mkdir = none)
    (hheap : ∀ i, i < heap.SampleCount.toNat → (env.samples i).get = none ∧
      (∃ data, (env.samples i).read = .ok data) ∧ (env.samples i).write = .ok)
    (hcpu : ∀ i, i < cpu.SampleCount.toNat → (env.samples i).get = none ∧
      (∃ data, (env.samples i).read = .ok data) ∧ (env.samples i).write = .ok) :
    (artifacts (collectHeapProfiles config heap pm env fs).fs (config.OutputDir ++ "/heap") =
        artifacts fs (config.OutputDir ++ "/heap") ∪
          (Finset.range heap.SampleCount.toNat).image
            (fun i => config.OutputDir ++ "/heap" ++ "/heap_" ++ (env.samples i).now.Format ++
              ".prof") ∧
      (artifacts (collectHeapProfiles config heap pm env fs).fs
          (config.OutputDir ++ "/heap")).card ≤
        (artifacts fs (config.OutputDir ++ "/heap")).card + heap.SampleCount.toNat ∧
      (artifacts fs (config.OutputDir ++ "/heap") = ∅ →
        (∀ i j, i < heap.SampleCount.toNat → j < heap.SampleCount.toNat →
          (env.samples i).now.Format = (env.samples j).now.Format → i = j) →
        (artifacts (collectHeapProfiles config heap pm env fs).fs
          (config.OutputDir ++ "/heap")).card = heap.SampleCount.toNat)) ∧
    (artifacts (collectCPUProfile config cpu pm env fs).fs (config.OutputDir ++ "/cpu") =
        artifacts fs (config.OutputDir ++ "/cpu") ∪
          (Finset.range cpu.SampleCount.toNat).image
            (fun i => config.OutputDir ++ "/cpu" ++ "/cpu_" ++ (env.samples i).now.Format ++
              ".prof") ∧
      (artifacts (collectCPUProfile config cpu pm env fs).fs
          (config.OutputDir ++ "/cpu")).card ≤
        (artifacts fs (config.OutputDir ++ "/cpu")).card + cpu.SampleCount.toNat ∧
      (artifacts fs (config.OutputDir ++ "/cpu") = ∅ →
        (∀ i j, i < cpu.SampleCount.toNat → j < cpu.SampleCount.toNat →
          (env.samples i).now.Format = (env.samples j).now.Format → i = j) →
        (artifacts (collectCPUProfile config cpu pm env fs).fs
          (config.OutputDir ++ "/cpu")).card = cpu.SampleCount.toNat)) := by
  have hh : artifacts (collectHeapProfiles config heap pm env fs).fs
      (config.OutputDir ++ "/heap") =
      artifacts fs (config.OutputDir ++ "/heap") ∪
        (Finset.range heap.SampleCount.toNat).image
          (fun i => heapFile (config.OutputDir ++ "/heap") (env.samples i).now) := by
    rw [collectHeapProfiles_fs config heap pm env fs hdir,
      heapLoop_artifacts config heap _ env.samples _ 0 fs
        (fun j _ h2 => hheap j (by omega)),
      ← List.range_eq_range']
    congr 1
  have hc : artifacts (collectCPUProfile config cpu pm env fs).fs
      (config.OutputDir ++ "/cpu") =
      artifacts fs (config.OutputDir ++ "/cpu") ∪
        (Finset.range cpu.SampleCount.toNat).image
          (fun i => cpuFile (config.OutputDir ++ "/cpu") (env.samples i).now) := by
    rw [collectCPUProfile_fs config cpu pm env fs hdir,
      cpuLoop_artifacts config cpu _ env.samples _ 0 fs
        (fun j _ h2 => hcpu j (by omega)),
      ← List.range_eq_range']
    congr 1
  refine ⟨⟨hh, ?_, ?_⟩, ⟨hc, ?_, ?_⟩⟩
  · rw [hh]; exact (card_files _ _ _).1
  · intro he hinj
    rw [hh]
    exact (card_files _ _ _).2 he (fun i j hi hj hij => hinj i j hi hj (heapFile_inj hij))
  · rw [hc]; exact (card_files _ _ _).1
  · intro he hinj
    rw [hc]
    exact (card_files _ _ _).2 he (fun i j hi hj hij => hinj i j hi hj (cpuFile_inj hij))

/-- Witness of C5 as amended: three healthy samples ten seconds apart leave three heap
files in an empty file system. -/
theorem healthy_run_files_witness :
    healthyEnv.mkdir = none ∧
      (artifacts (collectHeapProfiles exampleConfig exampleHeap (portmanager.New 21000)
        healthyEnv []).fs (exampleConfig.OutputDir ++ "/heap")).card =
          exampleHeap.SampleCount.toNat :=
  ⟨rfl, (healthy_run_files exampleConfig exampleHeap exampleCPU (portmanager.New 21000)
      healthyEnv [] rfl (fun _ _ => ⟨rfl, ⟨_, rfl⟩, rfl⟩)
      (fun _ _ => ⟨rfl, ⟨_, rfl⟩, rfl⟩)).1.2.2 rfl (by
        intro i j hi hj
        have h3 : exampleHeap.SampleCount.toNat = 3 := rfl
        rw [h3] at hi hj
        interval_cases i <;> interval_cases j <;> decide)⟩

/-- Counterexample to C5 as stated: with `SampleCount = 2`, every request, read and
write succeeding, and the two captures 450 milliseconds apart within one second, both
samples are written to `out/heap/heap_2025-11-04_09-07-01.prof`: one file, not two. -/
theorem same_second_one_file :
    burstHeap.SampleCount = 2 ∧ burstEnv.mkdir = none ∧
      ((burstEnv.samples 0).get = none ∧ (burstEnv.samples 0).read = .ok [1, 2, 3] ∧
        (burstEnv.samples 0).write = .ok) ∧
      ((burstEnv.samples 1).get = none ∧ (burstEnv.samples 1).read = .ok [1, 2, 3] ∧
        (burstEnv.samples 1).write = .ok) ∧
      (burstEnv.samples 0).now = { unix := 1762247221, nsec := 0, offset := 0 } ∧
      (burstEnv.samples 1).now = { unix := 1762247221, nsec := 450000000, offset := 0 } ∧
      writes (collectHeapProfiles exampleConfig burstHeap (portmanager.New 21000)
        burstEnv []).trace =
        [("out/heap/heap_2025-11-04_09-07-01.prof", [1, 2, 3]),
         ("out/heap/heap_2025-11-04_09-07-01.prof", [1, 2, 3])] ∧
      (collectHeapProfiles exampleConfig burstHeap (portmanager.New 21000) burstEnv []).fs =
        [("out/heap/heap_2025-11-04_09-07-01.prof", [1, 2, 3])] ∧
      (artifacts (collectHeapProfiles exampleConfig burstHeap (portmanager.New 21000)
        burstEnv []).fs "out/heap").card = 1 := by
  refine ⟨rfl, rfl, ⟨rfl, rfl, rfl⟩, ⟨rfl, rfl, rfl⟩, by decide, by decide, ?_, ?_, ?_⟩
  · decide
  · decide
  · decide

/-- C6: once the output subdirectory was created, for every `SampleCount` and every
pattern of per-sample outcomes, each sampling loop sends exactly `SampleCount` requests
(one per iteration, zero for a negative count), so no failure ends it early, and the file
writes it attempts are, in iteration order, exactly those of the iterations whose request
and body read both succeeded, each to that iteration's file with the body read. -/
theorem loop_runs_all_iterations (config : Config) (heap : HeapProfileConfig)
    (cpu : CPUProfileConfig) (pm : portmanager.PortManager) (env : SamplerEnv) (fs : FS)
    (hdir : env.mkdir = none) :
    requests (collectHeapProfiles config heap pm env fs).trace =
        List.replicate heap.SampleCount.toNat (5 * Second, heapURL config) ∧
      writes (collectHeapProfiles config heap pm env fs).trace =
        (List.range heap.SampleCount.toNat).filterMap (fun i =>
          match (env.samples i).get, (env.samples i).read with
          | none, .ok data =>
            some (heapFile (config.OutputDir ++ "/heap") (env.samples i).now, data)
          | _, _ => none) ∧
      requests (collectCPUProfile config cpu pm env fs).trace =
        List.replicate cpu.SampleCount.toNat (cpuTimeout cpu, cpuURL config cpu) ∧
      writes (collectCPUProfile config cpu pm env fs).trace =
        (List.range cpu.SampleCount.toNat).filterMap (fun i =>
          match (env.samples i).get, (env.samples i).read with
          | none, .ok data =>
            some (cpuFile (config.OutputDir ++ "/cpu") (env.samples i).now, data)
          | _, _ => none) := by
  rw [collectHeapProfiles_trace config heap pm env fs hdir,
    collectCPUProfile_trace config cpu pm env fs hdir]
  obtain ⟨-, h2, -, -, h5⟩ := heapLoop_trace config heap (config.OutputDir ++ "/heap")
    env.samples heap.SampleCount.toNat 0 fs
  obtain ⟨-, c2, -, -, c5⟩ := cpuLoop_trace config cpu (config.OutputDir ++ "/cpu")
    env.samples cpu.SampleCount.toNat 0 fs
  have hv : ∀ (dir ty : String) (fs1 : FS) (b : Bool),
      requests (if b then (openProfilesInBrowser pm dir ty env.viewer fs1).trace else []) = [] ∧
      writes (if b then (openProfilesInBrowser pm dir ty env.viewer fs1).trace else []) = [] := by
    intro dir ty fs1 b
    obtain ⟨-, q2, q3, -, -⟩ := openProfilesInBrowser_quiet pm dir ty env.viewer fs1
    cases b
    · exact ⟨rfl, rfl⟩
    · exact ⟨q2, q3⟩
  simp only [requests_append, writes_append, h2, h5, c2, c5,
    (hv _ _ _ _).1, (hv _ _ _ _).2, List.append_nil, List.range_eq_range']
  simp [requests, writes]

/-- Witness of C6: with every other request failing, the heap loop still sends its three
requests and writes the samples of iterations 0 and 2. -/
theorem loop_runs_all_iterations_witness :
    flakyEnv.mkdir = none ∧
      requests (collectHeapProfiles exampleConfig exampleHeap (portmanager.New 21000)
        flakyEnv []).trace =
        List.replicate exampleHeap.SampleCount.toNat (5 * Second, heapURL exampleConfig) ∧
      writes (collectHeapProfiles exampleConfig exampleHeap (portmanager.New 21000)
        flakyEnv []).trace =
        [("out/heap/heap_2025-11-04_09-07-01.prof", [1, 2, 3]),
         ("out/heap/heap_2025-11-04_09-07-21.prof", [1, 2, 3])] :=
  ⟨rfl, (loop_runs_all_iterations exampleConfig exampleHeap exampleCPU (portmanager.New 21000)
      flakyEnv [] rfl).1,
    ((loop_runs_all_iterations exampleConfig exampleHeap exampleCPU (portmanager.New 21000)
      flakyEnv [] rfl).2.1).trans (by decide)⟩

/-- C7 as amended: every request of the CPU sampler is sent with the client timeout
`cpuTimeout` and asks for `seconds=cpuSeconds`; for every `Duration` of at most the
largest `time.Duration` less three seconds, the timeout is `Duration + 3 s` and is
strictly greater than the `cpuSeconds` seconds asked of the server, where `cpuSeconds`
is `int(Duration.Seconds())`, which is `Duration` truncated to whole seconds or, by the
rounding of the float, one further from zero. -/
theorem cpu_timeout_exceeds_capture (config : Config) (cpu : CPUProfileConfig)
    (pm : portmanager.PortManager) (env : SamplerEnv) (fs : FS)
    (hd : IsInt64 cpu.Duration) (hmax : cpu.Duration ≤ 9223372036854775807 - 3 * Second) :
    (∀ r ∈ requests (collectCPUProfile config cpu pm env fs).trace,
        r = (cpuTimeout cpu, "http://localhost:" ++ fmtInt config.Port ++
          "/debug/pprof/profile?seconds=" ++ fmtInt (cpuSeconds cpu))) ∧
      cpuTimeout cpu = cpu.Duration + 3 * Second ∧
      cpuSeconds cpu * Second < cpuTimeout cpu ∧
      (0 ≤ cpu.Duration → Int.tdiv cpu.Duration Second ≤ cpuSeconds cpu ∧
        cpuSeconds cpu ≤ Int.tdiv cpu.Duration Second + 1) ∧
      (cpu.Duration < 0 → Int.tdiv cpu.Duration Second - 1 ≤ cpuSeconds cpu ∧
        cpuSeconds cpu ≤ Int.tdiv cpu.Duration Second) := by
  obtain ⟨hsum, -, -, hpos, hneg⟩ := tdiv_tmod_second cpu.Duration hd
  obtain ⟨hp, hn⟩ := truncToInt_Seconds cpu.Duration hd
  have ht : cpuTimeout cpu = cpu.Duration + 3 * Second := by
    obtain ⟨h1, h2⟩ := hd
    unfold cpuTimeout wrapInt Second at *
    omega
  refine ⟨?_, ht, ?_, hp, hn⟩
  · intro r hr
    cases hdir : env.mkdir with
    | some e => simp [collectCPUProfile, hdir, requests] at hr
    | none =>
      rw [(loop_requests_cpu config cpu pm env fs hdir)] at hr
      exact (List.mem_replicate.mp hr).2
  · rw [ht]
    unfold cpuSeconds Second at *
    by_cases h0 : 0 ≤ cpu.Duration
    · have := hp h0; have := hpos h0; omega
    · have := hn (by omega); have := hneg (by omega); omega

/-- Witness of C7 as amended: a `Duration` of ten seconds. -/
theorem cpu_timeout_exceeds_capture_witness :
    IsInt64 exampleCPU.Duration ∧ exampleCPU.Duration ≤ 9223372036854775807 - 3 * Second ∧
      cpuTimeout exampleCPU = exampleCPU.Duration + 3 * Second ∧
      cpuSeconds exampleCPU * Second < cpuTimeout exampleCPU :=
  ⟨by decide, by decide,
    (cpu_timeout_exceeds_capture exampleConfig exampleCPU (portmanager.New 21000) healthyEnv []
      (by decide) (by decide)).2.1,
    (cpu_timeout_exceeds_capture exampleConfig exampleCPU (portmanager.New 21000) healthyEnv []
      (by decide) (by decide)).2.2.1⟩

/-- Counterexample to C7 as stated: for the largest `time.Duration`, `Duration + 3 s`
overflows: the client timeout is -9223372033854775809 ns, below the 9223372036 seconds
asked of the server. And for a `Duration` of 16777216.999999999 s the number of seconds
asked is 16777217, not the 16777216 of the truncated `Duration`. -/
theorem cpu_timeout_overflows :
    IsInt64 longestCPU.Duration ∧
      cpuTimeout longestCPU = -9223372033854775809 ∧
      cpuSeconds longestCPU = 9223372036 ∧
      cpuTimeout longestCPU < cpuSeconds longestCPU * Second ∧
      IsInt64 roundingCPU.Duration ∧
      Int.tdiv roundingCPU.Duration Second = 16777216 ∧
      cpuSeconds roundingCPU = 16777217 := by
  refine ⟨by decide, by decide, cpuSeconds_longestCPU, ?_, by decide, by decide,
    cpuSeconds_roundingCPU⟩
  rw [cpuSeconds_longestCPU]
  decide

/-! ## Claim on the defaults -/

/-- C8, the code at two inputs. Given `zeroConfig`, a non-nil configuration with only
`Heap` set, `RunProfile` hands the samplers port 6060, a time-stamped output directory
and profile rate 100, but a grace period of 0, not one second: the heap sampler's first
sleep is 0. Given nil, the output directory is `profile/profiles`, with no time stamp. -/
theorem defaults_left_unset :
    (RunProfile (some zeroConfig) { unix := 1762247221, nsec := 0, offset := 0 } none).config =
        some { zeroConfig with
          Port := 6060
          OutputDir := "profile/profiles_2025-11-04_09-07-01"
          GracePeriod := 0
          portManager := some (portmanager.New 21000) } ∧
      (RunProfile (some zeroConfig) { unix := 1762247221, nsec := 0, offset := 0 } none).trace =
        [.mkdirAll "profile/profiles_2025-11-04_09-07-01" 0o755, .setCPUProfileRate 100,
          .goListenAndServe ":6060", .goCollectHeapProfiles] ∧
      sleeps (collectHeapProfiles
          { zeroConfig with
            Port := 6060
            OutputDir := "profile/profiles_2025-11-04_09-07-01"
            portManager := some (portmanager.New 21000) }
          exampleHeap (portmanager.New 21000) healthyEnv []).trace =
        [0, 10000000000, 10000000000, 10000000000] ∧
      (RunProfile none { unix := 1762247221, nsec := 0, offset := 0 } none).config =
        some { defaultProfileConfig with
          OutputDir := "profile/profiles"
          GracePeriod := 1000000000
          portManager := some (portmanager.New 21000) } := by
  refine ⟨?_, ?_, ?_, ?_⟩ <;> decide

/-! ## Claims on the viewer launch and on the pacing -/

/-- C9 as amended: `openProfilesInBrowser` calls `cmd.Start()` exactly when `GetPort`
succeeds, and then on exactly one command, `go tool pprof -http :<port> <dir>/*` with
the port `GetPort` returned; the viewer process is spawned exactly when `GetPort`
succeeds and that `cmd.Start()` returns no error; when `GetPort` fails nothing is
started and nothing is spawned. A sampler calls `cmd.Start()` exactly when its
subdirectory was created, `OpenProfiles` is set and `GetPort` succeeds, and spawns the
viewer exactly when moreover `cmd.Start()` succeeds; and wherever a `start` event stands
in a sampler's trace, `OpenProfiles` is set, all `SampleCount` requests of the loop
precede it, and no request, file write or sleep follows it. -/
theorem viewer_after_loop (config : Config) (heap : HeapProfileConfig) (cpu : CPUProfileConfig)
    (pm : portmanager.PortManager) (env : SamplerEnv) (fs : FS) :
    (∀ dir ty : String,
      starts (openProfilesInBrowser pm dir ty env.viewer fs).trace =
          (match (portmanager.GetPort env.viewer.avail pm).err with
          | none => [["go", "tool", "pprof", "-http",
              ":" ++ fmtInt (portmanager.GetPort env.viewer.avail pm).port, dir ++ "/*"]]
          | some _ => []) ∧
        (openProfilesInBrowser pm dir ty env.viewer fs).children =
          (if (portmanager.GetPort env.viewer.avail pm).err = none ∧
              env.viewer.start = none then
            [["go", "tool", "pprof", "-http",
              ":" ++ fmtInt (portmanager.GetPort env.viewer.avail pm).port, dir ++ "/*"]]
          else [])) ∧
      starts (collectHeapProfiles config heap pm env fs).trace =
        (if env.mkdir = none ∧ config.OpenProfiles = true ∧
            (portmanager.GetPort env.viewer.avail pm).err = none then
          [["go", "tool", "pprof", "-http",
            ":" ++ fmtInt (portmanager.GetPort env.viewer.avail pm).port,
            config.OutputDir ++ "/heap" ++ "/*"]]
        else []) ∧
      (collectHeapProfiles config heap pm env fs).children =
        (if env.mkdir = none ∧ config.OpenProfiles = true ∧
            (portmanager.GetPort env.viewer.avail pm).err = none ∧
            env.viewer.start = none then
          [["go", "tool", "pprof", "-http",
            ":" ++ fmtInt (portmanager.GetPort env.viewer.avail pm).port,
            config.OutputDir ++ "/heap" ++ "/*"]]
        else []) ∧
      (∀ (pre : List Event) (argv : List String) (post : List Event),
        (collectHeapProfiles config heap pm env fs).trace = pre ++ Event.start argv :: post →
        config.OpenProfiles = true ∧
          requests pre = List.replicate heap.SampleCount.toNat (5 * Second, heapURL config) ∧
          requests post = [] ∧ writes post = [] ∧ sleeps post = []) ∧
      starts (collectCPUProfile config cpu pm env fs).trace =
        (if env.mkdir = none ∧ config.OpenProfiles = true ∧
            (portmanager.GetPort env.viewer.avail pm).err = none then
          [["go", "tool", "pprof", "-http",
            ":" ++ fmtInt (portmanager.GetPort env.viewer.avail pm).port,
            config.OutputDir ++ "/cpu" ++ "/*"]]
        else []) ∧
      (collectCPUProfile config cpu pm env fs).children =
        (if env.mkdir = none ∧ config.OpenProfiles = true ∧
            (portmanager.GetPort env.viewer.avail pm).err = none ∧
            env.viewer.start = none then
          [["go", "tool", "pprof", "-http",
            ":" ++ fmtInt (portmanager.GetPort env.viewer.avail pm).port,
            config.OutputDir ++ "/cpu" ++ "/*"]]
        else []) ∧
      (∀ (pre : List Event) (argv : List String) (post : List Event),
        (collectCPUProfile config cpu pm env fs).trace = pre ++ Event.start argv :: post →
        config.OpenProfiles = true ∧
          requests pre = List.replicate cpu.SampleCount.toNat (cpuTimeout cpu, cpuURL config cpu) ∧
          requests post = [] ∧ writes post = [] ∧ sleeps post = []) := by
  refine ⟨?_, ?_, ?_, ?_, ?_, ?_, ?_⟩
  · intro dir ty
    rw [openProfilesInBrowser_starts, openProfilesInBrowser_children]
    exact ⟨rfl, rfl⟩
  · rw [collectHeapProfiles_starts]; rfl
  · rw [collectHeapProfiles_children]; rfl
  · intro pre argv post h
    cases hdir : env.mkdir with
    | some e =>
      have hs := congrArg starts h
      rw [collectHeapProfiles_starts, starts_append] at hs
      simp [hdir, starts] at hs
    | none =>
      rw [collectHeapProfiles_trace config heap pm env fs hdir] at h
      obtain ⟨-, h2, h3, -, -⟩ := heapLoop_trace config heap (config.OutputDir ++ "/heap")
        env.samples heap.SampleCount.toNat 0 fs
      obtain ⟨hb, -, -, hpre, -, q2, q3, q4⟩ :=
        start_after_loop
          [Event.mkdirAll (config.OutputDir ++ "/heap") 0o755, Event.sleep config.GracePeriod]
          _ pm _ _ env.viewer _ config.OpenProfiles rfl h3 pre argv post h
      refine ⟨hb, ?_, q2, q3, q4⟩
      rw [hpre, requests_append, h2]
      rfl
  · rw [collectCPUProfile_starts]; rfl
  · rw [collectCPUProfile_children]; rfl
  · intro pre argv post h
    cases hdir : env.mkdir with
    | some e =>
      have hs := congrArg starts h
      rw [collectCPUProfile_starts, starts_append] at hs
      simp [hdir, starts] at hs
    | none =>
      rw [collectCPUProfile_trace config cpu pm env fs hdir] at h
      obtain ⟨-, h2, h3, -, -⟩ := cpuLoop_trace config cpu (config.OutputDir ++ "/cpu")
        env.samples cpu.SampleCount.toNat 0 fs
      obtain ⟨hb, -, -, hpre, -, q2, q3, q4⟩ :=
        start_after_loop
          [Event.mkdirAll (config.OutputDir ++ "/cpu") 0o755, Event.sleep config.GracePeriod]
          _ pm _ _ env.viewer _ config.OpenProfiles rfl h3 pre argv post h
      refine ⟨hb, ?_, q2, q3, q4⟩
      rw [hpre, requests_append, h2]
      rfl

/-- Witness of C9 as amended: after three healthy heap samples the viewer is spawned on
port 21000; with no port free nothing is started; with a port free and the `go` program
missing the command is started and no viewer is spawned. -/
theorem viewer_after_loop_witness :
    (collectHeapProfiles exampleConfig exampleHeap (portmanager.New 21000)
        healthyEnv []).children = [["go", "tool", "pprof", "-http", ":21000", "out/heap/*"]] ∧
      starts (collectHeapProfiles exampleConfig exampleHeap (portmanager.New 21000)
        flakyEnv []).trace = [] ∧
      (collectHeapProfiles exampleConfig exampleHeap (portmanager.New 21000)
        noViewerEnv []).children = [] :=
  ⟨((viewer_after_loop exampleConfig exampleHeap exampleCPU (portmanager.New 21000)
      healthyEnv []).2.2.1).trans (by decide),
    ((viewer_after_loop exampleConfig exampleHeap exampleCPU (portmanager.New 21000)
      flakyEnv []).2.1).trans (by decide),
    ((viewer_after_loop exampleConfig exampleHeap exampleCPU (portmanager.New 21000)
      noViewerEnv []).2.2.1).trans (by decide)⟩

/-- Counterexample to C9 as stated: with port 21000 free and the `go` program not to be
found, `GetPort` succeeds and `openProfilesInBrowser` spawns no viewer: `cmd.Start()`
returns an error, the function prints it and returns. -/
theorem viewer_start_fails :
    (portmanager.GetPort noViewerEnv.viewer.avail (portmanager.New 21000)).err = none ∧
      (portmanager.GetPort noViewerEnv.viewer.avail (portmanager.New 21000)).port = 21000 ∧
      (openProfilesInBrowser (portmanager.New 21000) "out/heap" "heap"
        noViewerEnv.viewer []).trace =
        [.start ["go", "tool", "pprof", "-http", ":21000", "out/heap/*"],
          .print "ERROR: Failed to open heap profiles in browser: executable file not found\n"] ∧
      (openProfilesInBrowser (portmanager.New 21000) "out/heap" "heap"
        noViewerEnv.viewer []).children = [] := by
  refine ⟨?_, ?_, ?_, ?_⟩ <;> decide

/-- C10: for every `SampleCount` and every pattern of per-sample outcomes, the heap
sampler, once its subdirectory was created, sleeps the grace period once and then the
configured `Interval` exactly once after each request, failed or not (`SampleCount`
interval sleeps in all), whereas the only sleep of the CPU sampler is the grace period:
its requests follow one another with no sleep between them. (A sampler whose
subdirectory could not be created neither sleeps nor sends a request.) -/
theorem interval_wait_per_iteration (config : Config) (heap : HeapProfileConfig)
    (cpu : CPUProfileConfig) (pm : portmanager.PortManager) (env : SamplerEnv) (fs : FS) :
    sleeps (collectHeapProfiles config heap pm env fs).trace =
        (if env.mkdir = none then
          config.GracePeriod :: List.replicate heap.SampleCount.toNat heap.Interval
        else []) ∧
      pacing (collectHeapProfiles config heap pm env fs).trace =
        (if env.mkdir = none then
          Event.sleep config.GracePeriod ::
            (List.replicate heap.SampleCount.toNat
              [Event.get (5 * Second) (heapURL config), Event.sleep heap.Interval]).flatten
        else []) ∧
      sleeps (collectCPUProfile config cpu pm env fs).trace =
        (if env.mkdir = none then [config.GracePeriod] else []) ∧
      pacing (collectCPUProfile config cpu pm env fs).trace =
        (if env.mkdir = none then
          Event.sleep config.GracePeriod ::
            List.replicate cpu.SampleCount.toNat
              (Event.get (cpuTimeout cpu) (cpuURL config cpu))
        else []) := by
  cases hdir : env.mkdir with
  | some e =>
    simp [collectHeapProfiles, collectCPUProfile, hdir, sleeps, pacing]
  | none =>
    rw [collectHeapProfiles_trace config heap pm env fs hdir,
      collectCPUProfile_trace config cpu pm env fs hdir]
    obtain ⟨h1, -, -, h4, -⟩ := heapLoop_trace config heap (config.OutputDir ++ "/heap")
      env.samples heap.SampleCount.toNat 0 fs
    obtain ⟨c1, -, -, c4, -⟩ := cpuLoop_trace config cpu (config.OutputDir ++ "/cpu")
      env.samples cpu.SampleCount.toNat 0 fs
    have hv : ∀ (dir ty : String) (fs1 : FS) (b : Bool),
        sleeps (if b then (openProfilesInBrowser pm dir ty env.viewer fs1).trace else []) = [] ∧
        pacing (if b then (openProfilesInBrowser pm dir ty env.viewer fs1).trace else []) = [] := by
      intro dir ty fs1 b
      obtain ⟨q1, -, -, q4, -⟩ := openProfilesInBrowser_quiet pm dir ty env.viewer fs1
      cases b
      · exact ⟨rfl, rfl⟩
      · exact ⟨q1, q4⟩
    simp only [sleeps_append, pacing_append, h1, h4, c1, c4,
      (hv _ _ _ _).1, (hv _ _ _ _).2, List.append_nil]
    simp [sleeps, pacing]

/-- Witness of C10: with every other request failing, the heap sampler sleeps the grace
period and three intervals, the CPU sampler the grace period only. -/
theorem interval_wait_per_iteration_witness :
    sleeps (collectHeapProfiles exampleConfig exampleHeap (portmanager.New 21000)
        flakyEnv []).trace = [1000000000, 10000000000, 10000000000, 10000000000] ∧
      sleeps (collectCPUProfile exampleConfig exampleCPU (portmanager.New 21000)
        flakyEnv []).trace = [1000000000] :=
  ⟨((interval_wait_per_iteration exampleConfig exampleHeap exampleCPU (portmanager.New 21000)
      flakyEnv []).1).trans (by decide),
    ((interval_wait_per_iteration exampleConfig exampleHeap exampleCPU (portmanager.New 21000)
      flakyEnv []).2.2.1).trans (by decide)⟩

end EasyProfile
